import Mathlib

/-!
Verification of the evolution-simulator core (TypeScript sources under
src/lib/entities and src/lib/simulation) against its natural-language
specification.  The operations are shallowly embedded over exact
rationals: every numeric value the program manipulates as a JS number is
modelled as a rational, square roots are avoided by comparing squared
distances where the program compares distances (the comparisons are
equivalent since both sides are nonnegative), and each call to
Math.random() is modelled as an explicitly quantified rational draw.
-/

namespace EvoSim

/-! ## Configuration constants, from src/lib/simulation/config.ts -/

def WORLD_WIDTH : ℚ := 2400
def WORLD_HEIGHT : ℚ := 1350
def SPATIAL_CELL_SIZE : ℚ := 50
def MAX_CREATURES : ℕ := 1500
def CREATURE_BASE_SPEED : ℚ := 100
def CREATURE_BASE_ENERGY : ℚ := 100
def CREATURE_MAX_ENERGY : ℚ := 150
def CREATURE_ENERGY_DRAIN_BASE : ℚ := 2
def TEMPERATURE_MIN : ℚ := -20
def TEMPERATURE_MAX : ℚ := 50
def MUTATION_RATE : ℚ := 0.001
def MUTATION_LARGE_CHANCE : ℚ := 0.005
def MUTATION_LARGE_AMOUNT : ℚ := 0.01
def HERBIVORE_SPEED_SIZE_PENALTY : ℚ := 0.8
def CARNIVORE_SPEED_SIZE_PENALTY : ℚ := 0.0
def OMNIVORE_SPEED_SIZE_PENALTY : ℚ := 0.3

/-! ## Trait vectors, from src/lib/entities/genetics.ts -/

/-- The 14-field trait vector (interface Traits). -/
structure Traits where
  speed : ℚ
  size : ℚ
  visionRange : ℚ
  metabolism : ℚ
  heatTolerance : ℚ
  coldTolerance : ℚ
  aggression : ℚ
  camouflage : ℚ
  lifespan : ℚ
  reproductionRate : ℚ
  socialBehavior : ℚ
  dietPreference : ℚ
  strength : ℚ
  stamina : ℚ
deriving DecidableEq

/-- clamp01 from genetics.ts: Math.max(0, Math.min(1, value)). -/
def clamp01 (value : ℚ) : ℚ := max 0 (min 1 value)

/-- A trait-vector field lies in the unit interval. -/
def inUnit (v : ℚ) : Prop := 0 ≤ v ∧ v ≤ 1

/-- The spec invariant: all 14 fields lie in the unit interval. -/
def TraitsOk (t : Traits) : Prop :=
  inUnit t.speed ∧ inUnit t.size ∧ inUnit t.visionRange ∧ inUnit t.metabolism ∧
  inUnit t.heatTolerance ∧ inUnit t.coldTolerance ∧ inUnit t.aggression ∧
  inUnit t.camouflage ∧ inUnit t.lifespan ∧ inUnit t.reproductionRate ∧
  inUnit t.socialBehavior ∧ inUnit t.dietPreference ∧ inUnit t.strength ∧
  inUnit t.stamina

/-- The Math.random() draws consumed by one call of mutateTrait
(large-mutation roll, direction roll, magnitude roll, deviation roll). -/
structure MutDraws where
  largeRoll : ℚ
  dirRoll : ℚ
  magRoll : ℚ
  devRoll : ℚ

/-- mutateTrait from genetics.ts, with the random draws made explicit. -/
def mutateTrait (value : ℚ) (mutationRate : ℚ) (d : MutDraws) : ℚ :=
  if d.largeRoll < MUTATION_LARGE_CHANCE then
    clamp01 (value + (if d.dirRoll < 0.5 then -1 else 1) * MUTATION_LARGE_AMOUNT * d.magRoll)
  else
    clamp01 (value + (d.devRoll - 0.5) * 2 * mutationRate)

/-- One bundle of MutDraws per trait field, as consumed by mutateTraits. -/
structure TraitsDraws where
  speed : MutDraws
  size : MutDraws
  visionRange : MutDraws
  metabolism : MutDraws
  heatTolerance : MutDraws
  coldTolerance : MutDraws
  aggression : MutDraws
  camouflage : MutDraws
  lifespan : MutDraws
  reproductionRate : MutDraws
  socialBehavior : MutDraws
  dietPreference : MutDraws
  strength : MutDraws
  stamina : MutDraws

/-- mutateTraits from genetics.ts. -/
def mutateTraits (t : Traits) (mutationRate : ℚ) (g : TraitsDraws) : Traits where
  speed := mutateTrait t.speed mutationRate g.speed
  size := mutateTrait t.size mutationRate g.size
  visionRange := mutateTrait t.visionRange mutationRate g.visionRange
  metabolism := mutateTrait t.metabolism mutationRate g.metabolism
  heatTolerance := mutateTrait t.heatTolerance mutationRate g.heatTolerance
  coldTolerance := mutateTrait t.coldTolerance mutationRate g.coldTolerance
  aggression := mutateTrait t.aggression mutationRate g.aggression
  camouflage := mutateTrait t.camouflage mutationRate g.camouflage
  lifespan := mutateTrait t.lifespan mutationRate g.lifespan
  reproductionRate := mutateTrait t.reproductionRate mutationRate g.reproductionRate
  socialBehavior := mutateTrait t.socialBehavior mutationRate g.socialBehavior
  dietPreference := mutateTrait t.dietPreference mutationRate g.dietPreference
  strength := mutateTrait t.strength mutationRate g.strength
  stamina := mutateTrait t.stamina mutationRate g.stamina

/-- mutateTraitsWithStress from genetics.ts: diet-linked traits get the
rate boosted by 1 + hungerStress * 4, metabolism by 1 + hungerStress. -/
def mutateTraitsWithStress (t : Traits) (hungerStress : ℚ) (baseRate : ℚ)
    (g : TraitsDraws) : Traits :=
  let dietRate := baseRate * (1 + hungerStress * 4)
  { speed := mutateTrait t.speed baseRate g.speed
    size := mutateTrait t.size baseRate g.size
    visionRange := mutateTrait t.visionRange baseRate g.visionRange
    metabolism := mutateTrait t.metabolism (baseRate * (1 + hungerStress)) g.metabolism
    heatTolerance := mutateTrait t.heatTolerance baseRate g.heatTolerance
    coldTolerance := mutateTrait t.coldTolerance baseRate g.coldTolerance
    aggression := mutateTrait t.aggression dietRate g.aggression
    camouflage := mutateTrait t.camouflage baseRate g.camouflage
    lifespan := mutateTrait t.lifespan baseRate g.lifespan
    reproductionRate := mutateTrait t.reproductionRate baseRate g.reproductionRate
    socialBehavior := mutateTrait t.socialBehavior baseRate g.socialBehavior
    dietPreference := mutateTrait t.dietPreference dietRate g.dietPreference
    strength := mutateTrait t.strength dietRate g.strength
    stamina := mutateTrait t.stamina dietRate g.stamina }

/-- One blend-chance draw per trait field, as consumed by crossoverTraits. -/
structure BlendDraws where
  speed : ℚ
  size : ℚ
  visionRange : ℚ
  metabolism : ℚ
  heatTolerance : ℚ
  coldTolerance : ℚ
  aggression : ℚ
  camouflage : ℚ
  lifespan : ℚ
  reproductionRate : ℚ
  socialBehavior : ℚ
  dietPreference : ℚ
  strength : ℚ
  stamina : ℚ

/-- One field of the crossover child: parent1 below 0.4, parent2 below
0.8, otherwise the arithmetic mean. -/
def crossoverField (p1v p2v blendChance : ℚ) : ℚ :=
  if blendChance < 0.4 then p1v
  else if blendChance < 0.8 then p2v
  else (p1v + p2v) / 2

/-- crossoverTraits from genetics.ts: per-field parent choice or blend,
then mutateTraits applied to the child. -/
def crossoverTraits (parent1 parent2 : Traits) (mutationRate : ℚ)
    (b : BlendDraws) (g : TraitsDraws) : Traits :=
  let child : Traits :=
    { speed := crossoverField parent1.speed parent2.speed b.speed
      size := crossoverField parent1.size parent2.size b.size
      visionRange := crossoverField parent1.visionRange parent2.visionRange b.visionRange
      metabolism := crossoverField parent1.metabolism parent2.metabolism b.metabolism
      heatTolerance := crossoverField parent1.heatTolerance parent2.heatTolerance b.heatTolerance
      coldTolerance := crossoverField parent1.coldTolerance parent2.coldTolerance b.coldTolerance
      aggression := crossoverField parent1.aggression parent2.aggression b.aggression
      camouflage := crossoverField parent1.camouflage parent2.camouflage b.camouflage
      lifespan := crossoverField parent1.lifespan parent2.lifespan b.lifespan
      reproductionRate :=
        crossoverField parent1.reproductionRate parent2.reproductionRate b.reproductionRate
      socialBehavior :=
        crossoverField parent1.socialBehavior parent2.socialBehavior b.socialBehavior
      dietPreference :=
        crossoverField parent1.dietPreference parent2.dietPreference b.dietPreference
      strength := crossoverField parent1.strength parent2.strength b.strength
      stamina := crossoverField parent1.stamina parent2.stamina b.stamina }
  mutateTraits child mutationRate g

theorem clamp01_mem (v : ℚ) : inUnit (clamp01 v) := by
  unfold clamp01 inUnit
  constructor
  · exact le_max_left 0 _
  · exact max_le (by norm_num) (min_le_left 1 v)

theorem mutateTrait_mem (v rate : ℚ) (d : MutDraws) : inUnit (mutateTrait v rate d) := by
  unfold mutateTrait
  split
  · exact clamp01_mem _
  · exact clamp01_mem _

theorem mutateTraits_ok (t : Traits) (rate : ℚ) (g : TraitsDraws) :
    TraitsOk (mutateTraits t rate g) :=
  ⟨mutateTrait_mem _ _ _, mutateTrait_mem _ _ _, mutateTrait_mem _ _ _,
   mutateTrait_mem _ _ _, mutateTrait_mem _ _ _, mutateTrait_mem _ _ _,
   mutateTrait_mem _ _ _, mutateTrait_mem _ _ _, mutateTrait_mem _ _ _,
   mutateTrait_mem _ _ _, mutateTrait_mem _ _ _, mutateTrait_mem _ _ _,
   mutateTrait_mem _ _ _, mutateTrait_mem _ _ _⟩

theorem mutateTraitsWithStress_ok (t : Traits) (stress rate : ℚ) (g : TraitsDraws) :
    TraitsOk (mutateTraitsWithStress t stress rate g) :=
  ⟨mutateTrait_mem _ _ _, mutateTrait_mem _ _ _, mutateTrait_mem _ _ _,
   mutateTrait_mem _ _ _, mutateTrait_mem _ _ _, mutateTrait_mem _ _ _,
   mutateTrait_mem _ _ _, mutateTrait_mem _ _ _, mutateTrait_mem _ _ _,
   mutateTrait_mem _ _ _, mutateTrait_mem _ _ _, mutateTrait_mem _ _ _,
   mutateTrait_mem _ _ _, mutateTrait_mem _ _ _⟩

/-- C7: every trait vector produced by mutateTraits, mutateTraitsWithStress
or crossoverTraits has all 14 fields in the unit interval, for every input
vector with fields in the unit interval, every mutation rate and stress
value, and every sequence of random draws (the final clamp01 in mutateTrait
enforces the bound unconditionally). -/
theorem c7_trait_closure (t p2 : Traits) (rate stress : ℚ)
    (g g2 : TraitsDraws) (b : BlendDraws)
    (ht : TraitsOk t) (hp : TraitsOk p2) :
    TraitsOk (mutateTraits t rate g) ∧
    TraitsOk (mutateTraitsWithStress t stress rate g) ∧
    TraitsOk (crossoverTraits t p2 rate b g2) :=
  ⟨mutateTraits_ok t rate g, mutateTraitsWithStress_ok t stress rate g,
   mutateTraits_ok _ rate g2⟩

/-- Concrete trait vector with all fields 1/2, used by witnesses. -/
def halfTraits : Traits where
  speed := 0.5
  size := 0.5
  visionRange := 0.5
  metabolism := 0.5
  heatTolerance := 0.5
  coldTolerance := 0.5
  aggression := 0.5
  camouflage := 0.5
  lifespan := 0.5
  reproductionRate := 0.5
  socialBehavior := 0.5
  dietPreference := 0.5
  strength := 0.5
  stamina := 0.5

theorem halfTraits_ok : TraitsOk halfTraits := by
  refine ⟨?_, ?_, ?_, ?_, ?_, ?_, ?_, ?_, ?_, ?_, ?_, ?_, ?_, ?_⟩ <;>
    exact ⟨by norm_num [halfTraits], by norm_num [halfTraits]⟩

/-- Fixed draw bundle used by witnesses. -/
def zeroMutDraws : MutDraws := ⟨1, 1, 0, 0.5⟩

def zeroTraitsDraws : TraitsDraws :=
  ⟨zeroMutDraws, zeroMutDraws, zeroMutDraws, zeroMutDraws, zeroMutDraws,
   zeroMutDraws, zeroMutDraws, zeroMutDraws, zeroMutDraws, zeroMutDraws,
   zeroMutDraws, zeroMutDraws, zeroMutDraws, zeroMutDraws⟩

def zeroBlendDraws : BlendDraws :=
  ⟨0, 0, 0, 0, 0, 0, 0, 0, 0, 0, 0, 0, 0, 0⟩

/-- C7 witness at concrete inputs. -/
theorem c7_trait_closure_witness :
    TraitsOk halfTraits ∧
    TraitsOk (mutateTraits halfTraits 0.1 zeroTraitsDraws) :=
  ⟨halfTraits_ok,
   (c7_trait_closure halfTraits halfTraits 0.1 1 zeroTraitsDraws zeroTraitsDraws
     zeroBlendDraws halfTraits_ok halfTraits_ok).1⟩

/-! ## Creature speed, from src/lib/entities/genetics.ts (the module
imported by creature.ts) -/

/-- getCreatureSpeed: base speed from the speed trait, times a size
modifier chosen by a three-way branch on the diet preference
(carnivore above 0.65, herbivore below 0.35, omnivore otherwise),
each branch with its configured size penalty. -/
def getCreatureSpeed (t : Traits) : ℚ :=
  let baseSpeed := CREATURE_BASE_SPEED * (0.5 + t.speed)
  let sizeModifier :=
    if 0.65 < t.dietPreference then
      1.0 - t.size * CARNIVORE_SPEED_SIZE_PENALTY
    else if t.dietPreference < 0.35 then
      1.3 - t.size * HERBIVORE_SPEED_SIZE_PENALTY
    else
      1.1 - t.size * OMNIVORE_SPEED_SIZE_PENALTY
  baseSpeed * sizeModifier

/-- C2 (code bug): the creature speed does NOT vary continuously with the
diet preference.  The genetics module actually imported by creature.ts
computes the size modifier by a three-way branch, so for a creature with
size trait 0 and speed trait 0.5 the speed is 130 for every diet
preference below 0.35 but 110 at 0.35 (and 110 at 0.65 but 100 just
above it): a jump of 20 at the herbivore boundary, refuting continuity
at 0.35. -/
theorem c2_speed_jump_code_divergence :
    getCreatureSpeed { halfTraits with size := 0, dietPreference := 0.3 } = 130 ∧
    getCreatureSpeed { halfTraits with size := 0, dietPreference := 0.35 } = 110 ∧
    getCreatureSpeed { halfTraits with size := 0, dietPreference := 0.65 } = 110 ∧
    getCreatureSpeed { halfTraits with size := 0, dietPreference := 0.7 } = 100 ∧
    ¬ Continuous (fun d : ℚ =>
        getCreatureSpeed { halfTraits with size := 0, dietPreference := d }) := by
  refine ⟨?_, ?_, ?_, ?_, ?_⟩
  · norm_num [getCreatureSpeed, halfTraits, CREATURE_BASE_SPEED,
      HERBIVORE_SPEED_SIZE_PENALTY]
  · norm_num [getCreatureSpeed, halfTraits, CREATURE_BASE_SPEED,
      OMNIVORE_SPEED_SIZE_PENALTY]
  · norm_num [getCreatureSpeed, halfTraits, CREATURE_BASE_SPEED,
      OMNIVORE_SPEED_SIZE_PENALTY]
  · norm_num [getCreatureSpeed, halfTraits, CREATURE_BASE_SPEED,
      CARNIVORE_SPEED_SIZE_PENALTY]
  · intro hcont
    have hc : ContinuousAt (fun d : ℚ =>
        getCreatureSpeed { halfTraits with size := 0, dietPreference := d })
        0.35 := hcont.continuousAt
    rw [Metric.continuousAt_iff] at hc
    obtain ⟨δ, hδ, hball⟩ := hc 10 (by norm_num)
    obtain ⟨q, hq0, hqlt⟩ :=
      exists_rat_btwn (lt_min hδ (by norm_num : (0 : ℝ) < 0.35))
    have hq0' : (0 : ℚ) < q := by exact_mod_cast hq0
    have hqr : (q : ℝ) < δ := lt_of_lt_of_le hqlt (min_le_left _ _)
    have hq35 : q < 0.35 := by
      have h := lt_of_lt_of_le hqlt (min_le_right _ _)
      rw [show (0.35 : ℝ) = ((0.35 : ℚ) : ℝ) by norm_num] at h
      exact_mod_cast h
    have hdist : dist ((0.35 : ℚ) - q) (0.35 : ℚ) < δ := by
      rw [Rat.dist_eq]
      rw [show ((0.35 - q : ℚ) : ℝ) - ((0.35 : ℚ) : ℝ) = -(q : ℝ) by push_cast; ring]
      rw [abs_neg, abs_of_pos (by exact_mod_cast hq0')]
      exact hqr
    have hnear := hball hdist
    have hlow : getCreatureSpeed
        { halfTraits with size := 0, dietPreference := (0.35 : ℚ) - q } = 130 := by
      have h1 : (0.35 : ℚ) - q < 0.35 := by linarith
      have h2 : ¬ (0.65 : ℚ) < (0.35 : ℚ) - q := by linarith
      simp only [getCreatureSpeed, halfTraits]
      rw [if_neg h2, if_pos h1]
      norm_num [CREATURE_BASE_SPEED, HERBIVORE_SPEED_SIZE_PENALTY]
    have hat : getCreatureSpeed
        { halfTraits with size := 0, dietPreference := (0.35 : ℚ) } = 110 := by
      norm_num [getCreatureSpeed, halfTraits, CREATURE_BASE_SPEED,
        OMNIVORE_SPEED_SIZE_PENALTY]
    rw [hlow, hat, Rat.dist_eq] at hnear
    norm_num at hnear

/-! ## Further derived phenotypes used by Creature.update -/

def CREATURE_MIN_SIZE : ℚ := 3
def CREATURE_MAX_SIZE : ℚ := 32
def OMNIVORE_ENERGY_DRAIN_MULT : ℚ := 1.5
def HERBIVORE_BIG_ENERGY_PENALTY : ℚ := 1.0
def OMNIVORE_BIG_ENERGY_PENALTY : ℚ := 1.5
def HERBIVORE_LIFESPAN_MULT : ℚ := 0.9
def CARNIVORE_LIFESPAN_MULT : ℚ := 1.5
def OMNIVORE_LIFESPAN_MULT : ℚ := 1.0

/-- getCreatureSize: linear interpolation of the configured pixel range. -/
def getCreatureSize (t : Traits) : ℚ :=
  CREATURE_MIN_SIZE + t.size * (CREATURE_MAX_SIZE - CREATURE_MIN_SIZE)

/-- getEnergyDrain: square-cube size modifier, inverse metabolism, and a
branched diet modifier (big-herbivore penalty, omnivore generalist
penalty with a big-omnivore surcharge, nothing for carnivores). -/
def getEnergyDrain (t : Traits) : ℚ :=
  let sizeModifier := 0.3 + t.size * 1.5
  let metabolismModifier := 1.5 - t.metabolism
  let dietModifier : ℚ :=
    if t.dietPreference < 0.35 ∧ 0.5 < t.size then
      1 + (t.size - 0.5) * HERBIVORE_BIG_ENERGY_PENALTY
    else if 0.35 ≤ t.dietPreference ∧ t.dietPreference ≤ 0.65 then
      OMNIVORE_ENERGY_DRAIN_MULT *
        (if 0.4 < t.size then 1 + (t.size - 0.4) * OMNIVORE_BIG_ENERGY_PENALTY else 1)
    else 1
  CREATURE_ENERGY_DRAIN_BASE * sizeModifier * metabolismModifier * dietModifier

/-- getMaxLifespan: 30-90s base from the lifespan trait, size factor
0.7 + 0.6 * size, and a three-way diet multiplier. -/
def getMaxLifespan (t : Traits) : ℚ :=
  let base := (30 + t.lifespan * 60) * (0.7 + t.size * 0.6)
  if 0.65 < t.dietPreference then base * CARNIVORE_LIFESPAN_MULT
  else if t.dietPreference < 0.35 then base * HERBIVORE_LIFESPAN_MULT
  else base * OMNIVORE_LIFESPAN_MULT

/-! ## Creature, from src/lib/entities/creature.ts -/

/-- The string-tagged behavioural state of a creature. -/
inductive CState where
  | wandering
  | seekingFood
  | seekingMate
  | hunting
  | fleeing
deriving DecidableEq

/-- Creature record.  The cached phenotype fields of the class are pure
functions of the trait vector (they are recomputed only at construction
and traits are immutable), so they are represented by the corresponding
genetics functions instead of stored copies. -/
structure Creature where
  id : ℕ
  posX : ℚ
  posY : ℚ
  velX : ℚ
  velY : ℚ
  traits : Traits
  energy : ℚ
  age : ℚ
  generation : ℕ
  lastReproduction : ℚ
  isAlive : Bool
  state : CState
  hungerStress : ℚ
  speciesId : Option ℕ
deriving DecidableEq

/-- maxEnergy getter: CREATURE_MAX_ENERGY * (0.7 + size * 0.6). -/
def maxEnergy (t : Traits) : ℚ := CREATURE_MAX_ENERGY * (0.7 + t.size * 0.6)

def Creature.energyPercent (c : Creature) : ℚ := c.energy / maxEnergy c.traits

def Traits.isHerbivore (t : Traits) : Prop := t.dietPreference < 0.35

def Traits.isCarnivore (t : Traits) : Prop := t.dietPreference > 0.65

def Traits.isOmnivore (t : Traits) : Prop := ¬t.isHerbivore ∧ ¬t.isCarnivore

instance (t : Traits) : Decidable t.isHerbivore := by
  unfold Traits.isHerbivore
  infer_instance

instance (t : Traits) : Decidable t.isCarnivore := by
  unfold Traits.isCarnivore
  infer_instance

instance (t : Traits) : Decidable t.isOmnivore := by
  unfold Traits.isOmnivore
  infer_instance

/-- Creature.eat: clamp energy at maxEnergy. -/
def Creature.eat (c : Creature) (foodEnergy : ℚ) : Creature :=
  { c with energy := min (maxEnergy c.traits) (c.energy + foodEnergy) }

/-- Creature.die: clear isAlive and zero the energy.  The species
registry notification it also performs is modelled at world level. -/
def Creature.die (c : Creature) : Creature :=
  { c with isAlive := false, energy := 0 }

/-- Creature.takeDamage: subtract energy, die at zero or below. -/
def Creature.takeDamage (c : Creature) (amount : ℚ) : Creature :=
  if c.energy - amount ≤ 0 then ({ c with energy := c.energy - amount }).die
  else { c with energy := c.energy - amount }

/-- Energy after the drain steps of Creature.update: metabolic drain with
diet efficiency, movement cost scaled by the speed ratio, hunting cost.
The ratio magnitude(velocity) / speed feeding the movement cost involves
a square root, so its value is passed as the parameter speedRatio; no
claim depends on it. -/
def updateEnergy (c : Creature) (deltaTime speedRatio : ℚ) : ℚ :=
  let t := c.traits
  let metabolismEfficiency : ℚ :=
    if t.isHerbivore then 0.8 else if t.isCarnivore then 0.85 else 1.0
  let movementCost : ℚ :=
    if t.isCarnivore then 0.3 else if t.isHerbivore then 0.35 else 0.4
  let e1 := c.energy - getEnergyDrain t * deltaTime * metabolismEfficiency
  let e2 := e1 - speedRatio * deltaTime * movementCost
  if c.state = CState.hunting ∧ (t.isCarnivore ∨ t.isOmnivore) then
    e2 - deltaTime * (if t.isCarnivore then 0.8 else 0.5)
  else e2

/-- Hunger stress after Creature.update: accumulates below 50 percent
energy, decays above 70 percent, computed from the post-drain energy. -/
def updateStress (c : Creature) (deltaTime speedRatio : ℚ) : ℚ :=
  let pct := updateEnergy c deltaTime speedRatio / maxEnergy c.traits
  if pct < 0.5 then min 1 (c.hungerStress + (0.5 - pct) * 2 * deltaTime * 0.1)
  else if pct > 0.7 then max 0 (c.hungerStress - deltaTime * 0.02)
  else c.hungerStress

/-- Position and velocity on one axis after integration and wall bounce. -/
def bounceAxis (p v deltaTime s limit : ℚ) : ℚ × ℚ :=
  let p' := p + v * deltaTime
  if p' < s then (s, -v)
  else if p' > limit - s then (limit - s, -v)
  else (p', v)

/-- Creature.update: age, energy drains, hunger stress, death check
(energy depleted or lifespan exceeded, both through die), position
integration with wall bounce. -/
def Creature.update (c : Creature) (deltaTime speedRatio : ℚ) : Creature :=
  if c.isAlive = false then c
  else
    let c3 := { c with
      age := c.age + deltaTime
      energy := updateEnergy c deltaTime speedRatio
      hungerStress := updateStress c deltaTime speedRatio }
    if updateEnergy c deltaTime speedRatio ≤ 0 ∨
        c.age + deltaTime ≥ getMaxLifespan c.traits then c3.die
    else
      let s := getCreatureSize c.traits
      let bx := bounceAxis c.posX c.velX deltaTime s WORLD_WIDTH
      let by' := bounceAxis c.posY c.velY deltaTime s WORLD_HEIGHT
      { c3 with posX := bx.1, velX := bx.2, posY := by'.1, velY := by'.2 }

/-- Creature constructor: energy CREATURE_BASE_ENERGY, age 0, alive,
wandering, zero hunger stress, no species.  The random initial velocity
direction is passed in as a pair of draws. -/
def mkCreature (cid : ℕ) (x y : ℚ) (t : Traits) (generation : ℕ) (vx vy : ℚ) : Creature where
  id := cid
  posX := x
  posY := y
  velX := vx
  velY := vy
  traits := t
  energy := CREATURE_BASE_ENERGY
  age := 0
  generation := generation
  lastReproduction := 0
  isAlive := true
  state := CState.wandering
  hungerStress := 0
  speciesId := none

/-- C6: eating never leaves energy above maxEnergy; the clamped-feeding
scenario ends at exactly 150; lethal damage leaves the creature dead
with energy exactly 0. -/
theorem c6_energy_bounds (c : Creature) (x : ℚ) (hx : 0 ≤ x) :
    (c.eat x).energy ≤ maxEnergy c.traits ∧
    (c.energy = 100 → maxEnergy c.traits = 150 → (c.eat 70).energy = 150) ∧
    (c.energy ≤ x → (c.takeDamage x).isAlive = false ∧ (c.takeDamage x).energy = 0) := by
  refine ⟨min_le_left _ _, ?_, ?_⟩
  · intro h100 h150
    simp only [Creature.eat, h100, h150]
    norm_num
  · intro hdmg
    have hle : c.energy - x ≤ 0 := by linarith
    unfold Creature.takeDamage
    rw [if_pos hle]
    exact ⟨rfl, rfl⟩

/-- Concrete creature used by the C6 witness: energy 100, size 1/2, so
maxEnergy is exactly 150. -/
def witnessCreature : Creature := mkCreature 0 100 100 halfTraits 0 1 0

/-- C6 witness: the scenario evaluated at the concrete creature. -/
theorem c6_energy_bounds_witness :
    (witnessCreature.eat 70).energy = 150 ∧
    (witnessCreature.takeDamage 120).isAlive = false ∧
    (witnessCreature.takeDamage 120).energy = 0 := by
  have h := c6_energy_bounds witnessCreature 120 (by norm_num)
  have hd := h.2.2 (by norm_num [witnessCreature, mkCreature, CREATURE_BASE_ENERGY])
  refine ⟨h.2.1 ?_ ?_, hd.1, hd.2⟩
  · norm_num [witnessCreature, mkCreature, CREATURE_BASE_ENERGY]
  · norm_num [witnessCreature, mkCreature, maxEnergy, halfTraits, CREATURE_MAX_ENERGY]

/-! ## C10: every in-simulation death path goes through die() -/

/-- One in-simulation operation on a creature.  The guards mirror how the
simulation invokes the operations: the collision passes skip dead
creatures before calling eat (and break before a dead hunter eats), and
every damage amount computed by the simulation is nonnegative. -/
inductive CStep : Creature → Creature → Prop where
  | update (c : Creature) (deltaTime speedRatio : ℚ) :
      CStep c (c.update deltaTime speedRatio)
  | eat (c : Creature) (x : ℚ) (h : c.isAlive = true) : CStep c (c.eat x)
  | takeDamage (c : Creature) (x : ℚ) (hx : 0 ≤ x) : CStep c (c.takeDamage x)
  | die (c : Creature) : CStep c c.die
  | assignSpecies (c : Creature) (sid : ℕ) :
      CStep c { c with speciesId := some sid }

/-- Creature states reachable from construction through in-simulation
operations. -/
inductive CReach : Creature → Prop where
  | construct (cid : ℕ) (x y : ℚ) (t : Traits) (generation : ℕ) (vx vy : ℚ) :
      CReach (mkCreature cid x y t generation vx vy)
  | step {c c' : Creature} : CReach c → CStep c c' → CReach c'

theorem update_dead_energy (c : Creature) (dt sr : ℚ)
    (ih : c.isAlive = false → c.energy = 0)
    (hdead : (c.update dt sr).isAlive = false) : (c.update dt sr).energy = 0 := by
  by_cases hA : c.isAlive = false
  · have hid : c.update dt sr = c := by
      unfold Creature.update
      rw [if_pos hA]
    rw [hid] at hdead ⊢
    exact ih hA
  · unfold Creature.update at hdead ⊢
    rw [if_neg hA] at hdead ⊢
    by_cases hP : updateEnergy c dt sr ≤ 0 ∨ c.age + dt ≥ getMaxLifespan c.traits
    · rw [if_pos hP]
      rfl
    · rw [if_neg hP] at hdead
      simp only [Creature.die] at hdead
      exact absurd hdead hA

theorem takeDamage_dead_energy (c : Creature) (x : ℚ) (hx : 0 ≤ x)
    (ih : c.isAlive = false → c.energy = 0)
    (hdead : (c.takeDamage x).isAlive = false) : (c.takeDamage x).energy = 0 := by
  unfold Creature.takeDamage at hdead ⊢
  by_cases hle : c.energy - x ≤ 0
  · rw [if_pos hle]
    rfl
  · rw [if_neg hle] at hdead ⊢
    have h0 := ih hdead
    exfalso
    apply hle
    rw [h0]
    linarith

theorem cstep_dead_energy {c c' : Creature} (h : CStep c c')
    (ih : c.isAlive = false → c.energy = 0) :
    c'.isAlive = false → c'.energy = 0 := by
  cases h with
  | update dt sr => exact update_dead_energy c dt sr ih
  | eat x h =>
    intro hdead
    simp only [Creature.eat] at hdead
    rw [h] at hdead
    simp at hdead
  | takeDamage x hx => exact takeDamage_dead_energy c x hx ih
  | die =>
    intro _
    simp [Creature.die]
  | assignSpecies sid =>
    intro hdead
    exact ih hdead

/-- C10: in every creature state reachable through the in-simulation
operations, a dead creature has energy exactly 0; in particular the
corpse-creation condition of World.cleanup (dead with energy above 5)
never holds for such a creature. -/
theorem c10_dead_creatures_have_zero_energy (c : Creature) (h : CReach c)
    (hdead : c.isAlive = false) : c.energy = 0 ∧ ¬(5 < c.energy) := by
  have key : c.isAlive = false → c.energy = 0 := by
    clear hdead
    induction h with
    | construct cid x y t generation vx vy =>
      intro hdead
      simp [mkCreature] at hdead
    | step _ hstep ih => exact cstep_dead_energy hstep ih
  refine ⟨key hdead, ?_⟩
  rw [key hdead]
  norm_num

/-- C10 witness: a freshly constructed creature killed by lethal damage
is dead with zero energy. -/
theorem c10_dead_creatures_have_zero_energy_witness :
    (witnessCreature.takeDamage 200).energy = 0 ∧
    ¬(5 < (witnessCreature.takeDamage 200).energy) := by
  have hreach : CReach (witnessCreature.takeDamage 200) :=
    CReach.step (CReach.construct 0 100 100 halfTraits 0 1 0)
      (CStep.takeDamage _ 200 (by norm_num))
  have hdead : (witnessCreature.takeDamage 200).isAlive = false := by
    norm_num [witnessCreature, mkCreature, Creature.takeDamage, Creature.die,
      CREATURE_BASE_ENERGY]
  have h := c10_dead_creatures_have_zero_energy _ hreach hdead
  exact ⟨h.1, h.2⟩

/-! ## SpatialHash, from src/lib/simulation/world.ts

The Map from string keys to buckets is represented by the list of
inserted entities together with the key function: the bucket of a key
holds exactly the inserted entities whose cell is that key (the string
key col,row is injective on integer pairs). -/

/-- An entity as required by the hash: an id and a position. -/
structure HEntity where
  id : ℕ
  x : ℚ
  y : ℚ
deriving DecidableEq

/-- getKey: integer cell coordinates floor(x / cellSize), floor(y / cellSize). -/
def getKey (cellSize x y : ℚ) : ℤ × ℤ := (⌊x / cellSize⌋, ⌊y / cellSize⌋)

/-- insert: push the entity into the bucket of its current cell
(represented as appending to the insertion list). -/
def hashInsert (grid : List HEntity) (e : HEntity) : List HEntity := grid ++ [e]

/-- The bucket of one cell key. -/
def bucket (grid : List HEntity) (cellSize : ℚ) (k : ℤ × ℤ) : List HEntity :=
  grid.filter (fun e => getKey cellSize e.x e.y = k)

/-- The loop counter dc = -n, -n+1, ..., written as a list of the
successive values. -/
def offsetsFrom (lo : ℤ) : ℕ → List ℤ
  | 0 => []
  | k + 1 => lo :: offsetsFrom (lo + 1) k

/-- getNearby: visit all cells within ceil(radius / cellSize) + 1 of the
query cell, skipping cells with a negative coordinate, and concatenate
their buckets. -/
def getNearby (grid : List HEntity) (cellSize x y radius : ℚ) : List HEntity :=
  let cellRadius := ⌈radius / cellSize⌉ + 1
  let centerCol := ⌊x / cellSize⌋
  let centerRow := ⌊y / cellSize⌋
  (offsetsFrom (-cellRadius) (2 * cellRadius + 1).toNat).flatMap fun dc =>
    (offsetsFrom (-cellRadius) (2 * cellRadius + 1).toNat).flatMap fun dr =>
      if centerCol + dc < 0 ∨ centerRow + dr < 0 then []
      else bucket grid cellSize (centerCol + dc, centerRow + dr)

theorem mem_offsetsFrom {z lo : ℤ} {k : ℕ} (h1 : lo ≤ z) (h2 : z < lo + k) :
    z ∈ offsetsFrom lo k := by
  induction k generalizing lo with
  | zero => omega
  | succ m ih =>
    rw [offsetsFrom]
    rcases eq_or_lt_of_le h1 with h | h
    · exact h ▸ List.mem_cons_self _ _
    · exact List.mem_cons_of_mem _ (ih (by omega) (by push_cast at h2 ⊢; omega))

theorem floor_add_le_floor_add_ceil (a b : ℚ) : ⌊a + b⌋ ≤ ⌊a⌋ + ⌈b⌉ := by
  have h1 : a + b < (⌊a⌋ + ⌈b⌉ : ℤ) + 1 := by
    push_cast
    have := Int.lt_floor_add_one a
    have := Int.le_ceil b
    linarith
  exact Int.lt_add_one_iff.mp (Int.floor_lt.mpr (by exact_mod_cast h1))

theorem floor_sub_ceil_le_floor_sub (a b : ℚ) : ⌊a⌋ - ⌈b⌉ ≤ ⌊a - b⌋ := by
  apply Int.le_floor.mpr
  push_cast
  have := Int.floor_le a
  have := Int.le_ceil b
  linarith

/-- C4 counterexample: with cell size 50, an entity inserted at position
(-1, 0) is at Euclidean distance exactly 1 from the query point (0, 0),
yet getNearby with radius 1 does not return it, because its cell has the
negative column -1 and getNearby skips cells with negative coordinates.
So the returned list is not a superset of the entities within distance
r for arbitrary inserted entities. -/
theorem c4_spatial_superset_counterexample :
    (⟨0, -1, 0⟩ : HEntity) ∈ hashInsert [] ⟨0, -1, 0⟩ ∧
    (0 : ℚ) ≤ 1 ∧
    (((-1 : ℚ)) - 0)^2 + ((0 : ℚ) - 0)^2 ≤ 1^2 ∧
    (⟨0, -1, 0⟩ : HEntity) ∉ getNearby (hashInsert [] ⟨0, -1, 0⟩) 50 0 0 1 := by
  refine ⟨by simp [hashInsert], by norm_num, by norm_num, ?_⟩
  have hceil : (⌈(1 : ℚ) / 50⌉ : ℤ) = 1 := by
    rw [Int.ceil_eq_iff] <;> norm_num
  have hfloor0 : (⌊(0 : ℚ) / 50⌋ : ℤ) = 0 := by norm_num
  have hfloorm1 : (⌊(-1 : ℚ) / 50⌋ : ℤ) = -1 := by
    rw [Int.floor_eq_iff] <;> norm_num
  intro hmem
  unfold getNearby at hmem
  rw [hceil, hfloor0] at hmem
  norm_num at hmem
  rcases hmem with ⟨dc, hdc, dr, hdr, ⟨hdc0, hdr0⟩, hbucket⟩
  simp only [bucket, hashInsert, List.nil_append, List.mem_filter,
    List.mem_singleton, getKey] at hbucket
  have hkey := of_decide_eq_true hbucket.2
  rw [hfloorm1, hfloor0] at hkey
  rw [Prod.mk.injEq] at hkey
  omega

/-- C4 amended: for every set of inserted entities whose positions have
nonnegative coordinates, every positive cell size, every query point and
every radius r at least 0, getNearby returns a superset of the inserted
entities whose Euclidean distance to the query point is at most r
(stated with squared distances; both sides are nonnegative).  The
restriction to nonnegative coordinates is forced by the skipped
negative cells exhibited in the counterexample; all world positions
satisfy it. -/
theorem c4_spatial_superset_amended (grid : List HEntity) (cellSize : ℚ)
    (hcs : 0 < cellSize) (e : HEntity) (he : e ∈ grid) (x y radius : ℚ)
    (hr : 0 ≤ radius) (hex : 0 ≤ e.x) (hey : 0 ≤ e.y)
    (hdist : (e.x - x)^2 + (e.y - y)^2 ≤ radius^2) :
    e ∈ getNearby grid cellSize x y radius := by
  have hxabs : -(radius) ≤ e.x - x ∧ e.x - x ≤ radius := by
    constructor <;> nlinarith [sq_nonneg (e.y - y), sq_nonneg (e.x - x + radius),
      sq_nonneg (e.x - x - radius)]
  have hyabs : -(radius) ≤ e.y - y ∧ e.y - y ≤ radius := by
    constructor <;> nlinarith [sq_nonneg (e.x - x), sq_nonneg (e.y - y + radius),
      sq_nonneg (e.y - y - radius)]
  set K := (⌈radius / cellSize⌉ : ℤ) with hK
  have hK0 : 0 ≤ K := Int.ceil_nonneg (div_nonneg hr hcs.le)
  set cc := (⌊x / cellSize⌋ : ℤ) with hcc
  set cr := (⌊y / cellSize⌋ : ℤ) with hcr
  set c1 := (⌊e.x / cellSize⌋ : ℤ) with hc1
  set c2 := (⌊e.y / cellSize⌋ : ℤ) with hc2
  have hcol1 : c1 ≤ cc + K := by
    have hle : e.x / cellSize ≤ x / cellSize + radius / cellSize := by
      rw [div_add_div_same]
      exact (div_le_div_right hcs).mpr (by linarith [hxabs.2])
    calc c1 ≤ ⌊x / cellSize + radius / cellSize⌋ := Int.floor_le_floor hle
      _ ≤ cc + K := floor_add_le_floor_add_ceil _ _
  have hcol2 : cc - K ≤ c1 := by
    have hle : x / cellSize - radius / cellSize ≤ e.x / cellSize := by
      rw [div_sub_div_same]
      exact (div_le_div_right hcs).mpr (by linarith [hxabs.1])
    calc cc - K ≤ ⌊x / cellSize - radius / cellSize⌋ := floor_sub_ceil_le_floor_sub _ _
      _ ≤ c1 := Int.floor_le_floor hle
  have hrow1 : c2 ≤ cr + K := by
    have hle : e.y / cellSize ≤ y / cellSize + radius / cellSize := by
      rw [div_add_div_same]
      exact (div_le_div_right hcs).mpr (by linarith [hyabs.2])
    calc c2 ≤ ⌊y / cellSize + radius / cellSize⌋ := Int.floor_le_floor hle
      _ ≤ cr + K := floor_add_le_floor_add_ceil _ _
  have hrow2 : cr - K ≤ c2 := by
    have hle : y / cellSize - radius / cellSize ≤ e.y / cellSize := by
      rw [div_sub_div_same]
      exact (div_le_div_right hcs).mpr (by linarith [hyabs.1])
    calc cr - K ≤ ⌊y / cellSize - radius / cellSize⌋ := floor_sub_ceil_le_floor_sub _ _
      _ ≤ c2 := Int.floor_le_floor hle
  have hc1nn : 0 ≤ c1 := Int.floor_nonneg.mpr (div_nonneg hex hcs.le)
  have hc2nn : 0 ≤ c2 := Int.floor_nonneg.mpr (div_nonneg hey hcs.le)
  unfold getNearby
  have htn : (((2 * (K + 1) + 1).toNat : ℤ)) = 2 * (K + 1) + 1 :=
    Int.toNat_of_nonneg (by omega)
  apply List.mem_flatMap.mpr
  refine ⟨c1 - cc, mem_offsetsFrom (by omega) (by rw [htn]; omega), ?_⟩
  apply List.mem_flatMap.mpr
  refine ⟨c2 - cr, mem_offsetsFrom (by omega) (by rw [htn]; omega), ?_⟩
  have heq1 : cc + (c1 - cc) = c1 := by ring
  have heq2 : cr + (c2 - cr) = c2 := by ring
  rw [heq1, heq2, if_neg (by omega)]
  exact List.mem_filter.mpr ⟨he, by simp [getKey]⟩

/-- C4 amended witness: the entity at (10, 10) is within radius 20 of the
query point (0, 0) and is returned. -/
theorem c4_spatial_superset_amended_witness :
    (⟨3, 10, 10⟩ : HEntity) ∈ getNearby [⟨3, 10, 10⟩] 50 0 0 20 :=
  c4_spatial_superset_amended [⟨3, 10, 10⟩] 50 (by norm_num) ⟨3, 10, 10⟩
    (by simp) 0 0 20 (by norm_num) (by norm_num) (by norm_num) (by norm_num)

/-! ## Species registry, from src/lib/entities/species.ts

The Map from species id to record is represented as a list in insertion
order; the Map from creature id to species id as a function to Option.
The generated display name and colour strings take part in no claim and
are omitted from the record. -/

def SPECIES_THRESHOLD : ℚ := 0.15

structure Species where
  id : ℕ
  prototypeTraits : Traits
  population : ℤ
  totalBirths : ℕ
  totalDeaths : ℕ
  generation : ℕ
  createdAt : ℚ
deriving DecidableEq

/-- geneticDistance squared: the source computes sqrt(sumSquared / 14)
and only ever compares it with other distances and the threshold, so the
squared value is embedded and every comparison is squared (sqrt is
strictly monotone on nonnegatives). -/
def geneticDistanceSq (t1 t2 : Traits) : ℚ :=
  ((t1.speed - t2.speed)^2 + (t1.size - t2.size)^2 +
   (t1.visionRange - t2.visionRange)^2 + (t1.metabolism - t2.metabolism)^2 +
   (t1.heatTolerance - t2.heatTolerance)^2 + (t1.coldTolerance - t2.coldTolerance)^2 +
   (t1.aggression - t2.aggression)^2 + (t1.camouflage - t2.camouflage)^2 +
   (t1.lifespan - t2.lifespan)^2 + (t1.reproductionRate - t2.reproductionRate)^2 +
   (t1.socialBehavior - t2.socialBehavior)^2 + (t1.dietPreference - t2.dietPreference)^2 +
   (t1.strength - t2.strength)^2 + (t1.stamina - t2.stamina)^2) / 14

structure Registry where
  species : List Species
  mapping : ℕ → Option ℕ
  nextSpeciesId : ℕ

/-- SpeciesRegistry.reset (also the initial state). -/
def Registry.reset : Registry := ⟨[], fun _ => none, 1⟩

/-- One step of the findMatchingSpecies scan: skip extinct species, keep
the candidate with the smallest distance below the threshold. -/
def betterMatch (t : Traits) (best : Option (Species × ℚ)) (s : Species) :
    Option (Species × ℚ) :=
  if s.population = 0 then best
  else
    let dsq := geneticDistanceSq t s.prototypeTraits
    match best with
    | none => if dsq < SPECIES_THRESHOLD^2 then some (s, dsq) else none
    | some (b, bd) =>
        if dsq < SPECIES_THRESHOLD^2 ∧ dsq < bd then some (s, dsq) else some (b, bd)

/-- findMatchingSpecies: linear scan over the species in insertion
order. -/
def findMatchingSpecies (r : Registry) (t : Traits) : Option Species :=
  (r.species.foldl (betterMatch t) none).map Prod.fst

/-- createSpecies: fresh id, prototype copied from the traits, zero
counters. -/
def createSpecies (r : Registry) (t : Traits) (createdAt : ℚ) : Species × Registry :=
  let s : Species := ⟨r.nextSpeciesId, t, 0, 0, 0, 0, createdAt⟩
  (s, { r with species := r.species ++ [s], nextSpeciesId := r.nextSpeciesId + 1 })

/-- Prototype running average: proto * (1 - w) + traits * w per field. -/
def blendProto (p t : Traits) (w : ℚ) : Traits where
  speed := p.speed * (1 - w) + t.speed * w
  size := p.size * (1 - w) + t.size * w
  visionRange := p.visionRange * (1 - w) + t.visionRange * w
  metabolism := p.metabolism * (1 - w) + t.metabolism * w
  heatTolerance := p.heatTolerance * (1 - w) + t.heatTolerance * w
  coldTolerance := p.coldTolerance * (1 - w) + t.coldTolerance * w
  aggression := p.aggression * (1 - w) + t.aggression * w
  camouflage := p.camouflage * (1 - w) + t.camouflage * w
  lifespan := p.lifespan * (1 - w) + t.lifespan * w
  reproductionRate := p.reproductionRate * (1 - w) + t.reproductionRate * w
  socialBehavior := p.socialBehavior * (1 - w) + t.socialBehavior * w
  dietPreference := p.dietPreference * (1 - w) + t.dietPreference * w
  strength := p.strength * (1 - w) + t.strength * w
  stamina := p.stamina * (1 - w) + t.stamina * w

/-- The stat update applied to the assigned species: population and
births increment, generation max, prototype running average with weight
1 / population taken after the increment. -/
def bumpSpecies (s : Species) (t : Traits) (generation : ℕ) : Species :=
  { s with
    population := s.population + 1
    totalBirths := s.totalBirths + 1
    generation := max s.generation generation
    prototypeTraits := blendProto s.prototypeTraits t (1 / ((s.population + 1 : ℤ) : ℚ)) }

/-- Replace the species with the given id (Map.get + in-place mutation). -/
def updateById (l : List Species) (sid : ℕ) (f : Species → Species) : List Species :=
  l.map fun s => if s.id = sid then f s else s

/-- assignSpecies: reuse the matching species or create one, update its
stats and record the creature-to-species mapping.  Returns the assigned
species id. -/
def assignSpecies (r : Registry) (creatureId : ℕ) (t : Traits) (generation : ℕ)
    (currentTime : ℚ) : ℕ × Registry :=
  match findMatchingSpecies r t with
  | some s =>
      (s.id,
       { r with
         species := updateById r.species s.id (fun s0 => bumpSpecies s0 t generation)
         mapping := fun i => if i = creatureId then some s.id else r.mapping i })
  | none =>
      let sr := createSpecies r t currentTime
      (sr.1.id,
       { sr.2 with
         species := updateById sr.2.species sr.1.id (fun s0 => bumpSpecies s0 t generation)
         mapping := fun i => if i = creatureId then some sr.1.id else sr.2.mapping i })

/-- recordDeath: decrement population, increment deaths, delete the
mapping; the species record itself persists. -/
def recordDeath (r : Registry) (creatureId : ℕ) : Registry :=
  match r.mapping creatureId with
  | none => r
  | some sid =>
      { r with
        species := updateById r.species sid
          (fun s => { s with population := s.population - 1, totalDeaths := s.totalDeaths + 1 })
        mapping := fun i => if i = creatureId then none else r.mapping i }

/-! ## Corpse, from src/lib/entities/corpse.ts -/

def CORPSE_DECAY_TIME : ℚ := 30

structure Corpse where
  x : ℚ
  y : ℚ
  energy : ℚ
  size : ℚ
  createdAt : ℚ
  isConsumed : Bool
deriving DecidableEq

def Corpse.isDecayed (c : Corpse) (currentTime : ℚ) : Bool :=
  decide (currentTime - c.createdAt > CORPSE_DECAY_TIME)

/-- createCorpse: the corpse receives 60 percent of the energy passed in. -/
def createCorpse (x y creatureEnergy creatureSize currentTime : ℚ) : Corpse :=
  ⟨x, y, creatureEnergy * 0.6, creatureSize, currentTime, false⟩

/-! ## World, from src/lib/simulation/world.ts

Only the state the claims depend on is carried: creatures, corpses, the
registry, the id counter (the source keeps it as a module-global that is
not reset by initialize), the statistics counters and the simulation
clock.  The food list, spatial hashes and environment fields take part
in no world-level claim here.  totalDeaths is a natural number, whose
truncated subtraction is exactly the Math.max(0, totalDeaths - 1) clamp
of processEmigration. -/

structure World where
  creatures : List Creature
  corpses : List Corpse
  reg : Registry
  nextCreatureId : ℕ
  totalBirths : ℕ
  totalDeaths : ℕ
  generationMax : ℕ
  simulationTime : ℚ

/-- Construct a creature with the global id counter, assign its species
and push it: the shared core of initialize and addCreature. -/
def addAndAssign (w : World) (x y : ℚ) (t : Traits) (gen : ℕ) (vx vy : ℚ) : World :=
  let c := mkCreature w.nextCreatureId x y t gen vx vy
  let sr := assignSpecies w.reg c.id t gen w.simulationTime
  { w with
    nextCreatureId := w.nextCreatureId + 1
    reg := sr.2
    creatures := w.creatures ++ [{ c with speciesId := some sr.1 }] }

/-- World.addCreature (used from reproduction): the creature is
constructed before the capacity check (the id counter advances either
way); below MAX_CREATURES it is assigned a species and pushed, and the
birth and generation statistics update. -/
def addCreatureOp (w : World) (x y : ℚ) (t : Traits) (gen : ℕ) (vx vy : ℚ) : World :=
  if w.creatures.length < MAX_CREATURES then
    let w' := addAndAssign w x y t gen vx vy
    { w' with
      totalBirths := w'.totalBirths + 1
      generationMax := max w'.generationMax gen }
  else { w with nextCreatureId := w.nextCreatureId + 1 }

/-- World.initialize: reset collections, counters and the registry, then
spawn the founders (jittered herbivore traits are arbitrary here; the
id counter is module-global and persists). -/
def initWorld (nextId : ℕ) (founders : List ((ℚ × ℚ) × Traits)) : World :=
  founders.foldl (fun w f => addAndAssign w f.1.1 f.1.2 f.2 0 0 0)
    { creatures := [], corpses := [], reg := Registry.reset, nextCreatureId := nextId,
      totalBirths := 0, totalDeaths := 0, generationMax := 0, simulationTime := 0 }

/-- An in-simulation death (energy depletion, old age or predation): the
creature dies through Creature.die, which notifies the registry. -/
def killAt (w : World) (i : ℕ) : World :=
  match w.creatures[i]? with
  | none => w
  | some c =>
      { w with creatures := w.creatures.set i c.die, reg := recordDeath w.reg c.id }

/-- One emigration from processEmigration: the creature leaves through
the death path (creature.die()), then totalDeaths is decremented with
the Math.max(0, totalDeaths - 1) clamp. -/
def emigrateAt (w : World) (i : ℕ) : World :=
  match w.creatures[i]? with
  | none => w
  | some c =>
      { w with
        creatures := w.creatures.set i c.die
        reg := recordDeath w.reg c.id
        totalDeaths := w.totalDeaths - 1 }

/-- The corpse list after the corpse-creation loop of World.cleanup:
each dead creature with energy above 5 yields a corpse while fewer than
500 corpses exist. -/
def corpsesAfter (w : World) : List Corpse :=
  w.creatures.foldl
    (fun cs c =>
      if c.isAlive = false ∧ c.energy > 5 ∧ cs.length < 500 then
        cs ++ [createCorpse c.posX c.posY c.energy (getCreatureSize c.traits) w.simulationTime]
      else cs)
    w.corpses

/-- World.cleanup: create corpses from dead creatures, add the dead
count to totalDeaths, purge dead creatures and consumed or decayed
corpses. -/
def cleanupOp (w : World) : World :=
  let newCorpses := corpsesAfter w
  let deadCount := (w.creatures.filter fun c => !c.isAlive).length
  { w with
    totalDeaths := w.totalDeaths + deadCount
    creatures := w.creatures.filter fun c => c.isAlive
    corpses := newCorpses.filter fun c => !c.isConsumed && !c.isDecayed w.simulationTime }

/-- The world-level operations of the claim: creature addition, death,
emigration and cleanup. -/
inductive WStep : World → World → Prop where
  | addCreature (w : World) (x y : ℚ) (t : Traits) (gen : ℕ) (vx vy : ℚ) :
      WStep w (addCreatureOp w x y t gen vx vy)
  | death (w : World) (i : ℕ) (hi : i < w.creatures.length)
      (halive : (w.creatures.get ⟨i, hi⟩).isAlive = true) : WStep w (killAt w i)
  | emigrate (w : World) (i : ℕ) (hi : i < w.creatures.length)
      (halive : (w.creatures.get ⟨i, hi⟩).isAlive = true) : WStep w (emigrateAt w i)
  | cleanup (w : World) : WStep w (cleanupOp w)

/-- World states reachable from initialize through the world-level
operations. -/
inductive WReach : World → Prop where
  | init (nextId : ℕ) (founders : List ((ℚ × ℚ) × Traits)) :
      WReach (initWorld nextId founders)
  | step {w w' : World} : WReach w → WStep w w' → WReach w'

/-- Sum of population over the species with population above zero. -/
def sumActivePop (r : Registry) : ℤ :=
  ((r.species.filter fun s => decide (0 < s.population)).map Species.population).sum

/-- Number of creatures with isAlive true and a non-null speciesId. -/
def aliveAssignedCount (w : World) : ℕ :=
  (w.creatures.filter fun c => c.isAlive && c.speciesId.isSome).length

/-! ## Species-accounting invariant (C5) -/

theorem foldl_betterMatch_mem (t : Traits) (l : List Species)
    (acc : Option (Species × ℚ)) (s : Species) (d : ℚ)
    (h : l.foldl (betterMatch t) acc = some (s, d)) :
    acc = some (s, d) ∨ (s ∈ l ∧ s.population ≠ 0) := by
  induction l generalizing acc with
  | nil => exact Or.inl h
  | cons a as ih =>
    rcases ih (betterMatch t acc a) h with h1 | h1
    · unfold betterMatch at h1
      split at h1
      · exact Or.inl h1
      · cases acc with
        | none =>
          simp only at h1
          split at h1
          · rcases Option.some.inj h1 with h2
            refine Or.inr ⟨?_, ?_⟩
            · rw [← (Prod.mk.injEq _ _ _ _).mp h2 |>.1]
              exact List.mem_cons_self _ _
            · rw [← (Prod.mk.injEq _ _ _ _).mp h2 |>.1]
              assumption
          · exact absurd h1 (by simp)
        | some bp =>
          simp only at h1
          split at h1
          · rcases Option.some.inj h1 with h2
            refine Or.inr ⟨?_, ?_⟩
            · rw [← (Prod.mk.injEq _ _ _ _).mp h2 |>.1]
              exact List.mem_cons_self _ _
            · rw [← (Prod.mk.injEq _ _ _ _).mp h2 |>.1]
              assumption
          · left
            rw [← h1]
    · exact Or.inr ⟨List.mem_cons_of_mem _ h1.1, h1.2⟩

theorem findMatchingSpecies_spec (r : Registry) (t : Traits) (s : Species)
    (h : findMatchingSpecies r t = some s) : s ∈ r.species ∧ s.population ≠ 0 := by
  unfold findMatchingSpecies at h
  rcases Option.map_eq_some'.mp h with ⟨⟨s', d⟩, hfold, hfst⟩
  cases hfst
  rcases foldl_betterMatch_mem t r.species none s' d hfold with h1 | h1
  · exact absurd h1 (by simp)
  · exact h1

theorem updateById_map_id (l : List Species) (sid : ℕ) (f : Species → Species)
    (hf : ∀ s, (f s).id = s.id) :
    (updateById l sid f).map Species.id = l.map Species.id := by
  unfold updateById
  rw [List.map_map]
  apply List.map_congr_left
  intro s _
  simp only [Function.comp_apply]
  split
  · exact hf s
  · rfl

theorem updateById_mem (l : List Species) (sid : ℕ) (f : Species → Species)
    (s' : Species) (h : s' ∈ updateById l sid f) :
    ∃ s0 ∈ l, s' = if s0.id = sid then f s0 else s0 := by
  unfold updateById at h
  rcases List.mem_map.mp h with ⟨s0, hs0, heq⟩
  exact ⟨s0, hs0, heq.symm⟩

/-- Splitting a list at a valid index. -/
theorem list_split_at_index {α : Type} (l : List α) (i : ℕ) (hi : i < l.length) :
    l = l.take i ++ l.get ⟨i, hi⟩ :: l.drop (i + 1) ∧
    ∀ x, l.set i x = l.take i ++ x :: l.drop (i + 1) ∧ (l.take i).length = i := by
  refine ⟨?_, fun x => ⟨?_, List.length_take_of_le (by omega)⟩⟩
  · conv_lhs => rw [← List.take_append_drop i l]
    congr 1
    rw [List.get_eq_getElem, List.getElem_cons_drop]
  · rw [List.set_eq_take_append_cons_drop]
    rw [if_pos hi]

theorem id_inj_of_nodup {l : List Species} (hN : (l.map Species.id).Nodup)
    {s0 s1 : Species} (h0 : s0 ∈ l) (h1 : s1 ∈ l) (h : s0.id = s1.id) : s0 = s1 :=
  List.inj_on_of_nodup_map hN h0 h1 h

theorem bumpSpecies_id (s : Species) (t : Traits) (gen : ℕ) :
    (bumpSpecies s t gen).id = s.id := rfl

theorem assignSpecies_facts (r : Registry) (cid : ℕ) (t : Traits) (gen : ℕ)
    (time : ℚ) (sid : ℕ) (r' : Registry)
    (heq : assignSpecies r cid t gen time = (sid, r'))
    (hN : (r.species.map Species.id).Nodup)
    (hLt : ∀ s ∈ r.species, s.id < r.nextSpeciesId) :
    (r'.mapping cid = some sid) ∧
    (∀ i, i ≠ cid → r'.mapping i = r.mapping i) ∧
    (sid ∈ r'.species.map Species.id) ∧
    ((r'.species.map Species.id).Nodup) ∧
    (∀ s ∈ r'.species, s.id < r'.nextSpeciesId) ∧
    (∀ sid0, sid0 ∈ r.species.map Species.id → sid0 ∈ r'.species.map Species.id) ∧
    (∀ s' ∈ r'.species, s'.id ≠ sid → s' ∈ r.species) ∧
    (∃ pop0 : ℤ,
      (∀ s' ∈ r'.species, s'.id = sid → s'.population = pop0 + 1) ∧
      ((∃ s0 ∈ r.species, s0.id = sid ∧ s0.population = pop0) ∨
       (pop0 = 0 ∧ sid ∉ r.species.map Species.id))) := by
  unfold assignSpecies at heq
  cases hm : findMatchingSpecies r t with
  | some s =>
    rw [hm] at heq
    simp only [Prod.mk.injEq] at heq
    obtain ⟨hsid, hr'⟩ := heq
    subst hsid
    subst hr'
    have hs := findMatchingSpecies_spec r t s hm
    have hids : (updateById r.species s.id fun s0 => bumpSpecies s0 t gen).map Species.id
        = r.species.map Species.id :=
      updateById_map_id _ _ _ (fun s0 => bumpSpecies_id s0 t gen)
    refine ⟨by simp, fun i hi => by simp [hi], ?_, ?_, ?_, ?_, ?_, ?_⟩
    · rw [hids]
      exact List.mem_map_of_mem _ hs.1
    · rw [hids]
      exact hN
    · intro s' hs'
      rcases updateById_mem _ _ _ _ hs' with ⟨s0, hs0, hcond⟩
      have : s'.id = s0.id := by
        rw [hcond]
        split
        · exact bumpSpecies_id s0 t gen
        · rfl
      rw [this]
      exact hLt s0 hs0
    · intro sid0 h0
      rw [hids]
      exact h0
    · intro s' hs' hne
      rcases updateById_mem _ _ _ _ hs' with ⟨s0, hs0, hcond⟩
      rw [hcond]
      split
      · exfalso
        apply hne
        rw [hcond]
        rw [if_pos (by assumption)]
        rw [bumpSpecies_id]
        assumption
      · exact hs0
    · refine ⟨s.population, ?_, Or.inl ⟨s, hs.1, rfl, rfl⟩⟩
      intro s' hs' hsid
      rcases updateById_mem _ _ _ _ hs' with ⟨s0, hs0, hcond⟩
      by_cases h0 : s0.id = s.id
      · have hs0s : s0 = s := id_inj_of_nodup hN hs0 hs.1 h0
        rw [hcond, if_pos h0, hs0s]
        rfl
      · exfalso
        rw [hcond, if_neg h0] at hsid
        exact h0 hsid
  | none =>
    rw [hm] at heq
    simp only [createSpecies, Prod.mk.injEq] at heq
    obtain ⟨hsid, hr'⟩ := heq
    subst hsid
    subst hr'
    have hfresh : ∀ s0 ∈ r.species, s0.id ≠ r.nextSpeciesId := by
      intro s0 h0
      have := hLt s0 h0
      omega
    have hids : (updateById (r.species ++ [⟨r.nextSpeciesId, t, 0, 0, 0, 0, time⟩])
          r.nextSpeciesId fun s0 => bumpSpecies s0 t gen).map Species.id
        = r.species.map Species.id ++ [r.nextSpeciesId] := by
      rw [updateById_map_id _ _ _ (fun s0 => bumpSpecies_id s0 t gen)]
      simp
    have hnotmem : r.nextSpeciesId ∉ r.species.map Species.id := by
      intro hmem
      rcases List.mem_map.mp hmem with ⟨s0, h0, hid⟩
      exact hfresh s0 h0 hid
    refine ⟨by simp, fun i hi => by simp [hi], ?_, ?_, ?_, ?_, ?_, ?_⟩
    · rw [hids]
      simp
    · rw [hids]
      simp only [List.nodup_append]
      exact ⟨hN, List.nodup_singleton _, by simpa using hnotmem⟩
    · intro s' hs'
      rcases updateById_mem _ _ _ _ hs' with ⟨s0, hs0, hcond⟩
      have hid : s'.id = s0.id := by
        rw [hcond]
        split
        · exact bumpSpecies_id s0 t gen
        · rfl
      rcases List.mem_append.mp hs0 with h0 | h0
      · have := hLt s0 h0
        simp only
        rw [hid]
        omega
      · simp only [List.mem_singleton] at h0
        subst h0
        simp only at hid
        rw [hid]
        simp
    · intro sid0 h0
      rw [hids]
      exact List.mem_append_left _ h0
    · intro s' hs' hne
      rcases updateById_mem _ _ _ _ hs' with ⟨s0, hs0, hcond⟩
      rcases List.mem_append.mp hs0 with h0 | h0
      · rw [hcond, if_neg (hfresh s0 h0)]
        exact h0
      · exfalso
        simp only [List.mem_singleton] at h0
        subst h0
        apply hne
        rw [hcond]
        rw [if_pos rfl]
        rfl
    · refine ⟨0, ?_, Or.inr ⟨rfl, hnotmem⟩⟩
      intro s' hs' hsid
      rcases updateById_mem _ _ _ _ hs' with ⟨s0, hs0, hcond⟩
      rcases List.mem_append.mp hs0 with h0 | h0
      · exfalso
        rw [hcond, if_neg (hfresh s0 h0)] at hsid
        exact hfresh s0 h0 hsid
      · simp only [List.mem_singleton] at h0
        subst h0
        rw [hcond, if_pos rfl]
        rfl

/-- Number of creatures that are alive and mapped to the given species
id. -/
def countAssignedTo (w : World) (sid : ℕ) : ℕ :=
  (w.creatures.filter fun c => c.isAlive && decide (w.reg.mapping c.id = some sid)).length

/-- The bookkeeping invariant tying the world, the registry and the
per-species populations together. -/
structure Inv (w : World) : Prop where
  haveSpecies : ∀ c ∈ w.creatures, c.speciesId.isSome = true
  idsNodup : (w.creatures.map Creature.id).Nodup
  idsLt : ∀ c ∈ w.creatures, c.id < w.nextCreatureId
  mapLt : ∀ i sid, w.reg.mapping i = some sid → i < w.nextCreatureId
  sidsNodup : (w.reg.species.map Species.id).Nodup
  sidsLt : ∀ s ∈ w.reg.species, s.id < w.reg.nextSpeciesId
  mapValid : ∀ i sid, w.reg.mapping i = some sid → sid ∈ w.reg.species.map Species.id
  aliveMapped : ∀ c ∈ w.creatures, c.isAlive = true → (w.reg.mapping c.id).isSome = true
  popCounts : ∀ s ∈ w.reg.species, s.population = (countAssignedTo w s.id : ℤ)

theorem addAndAssign_inv (w : World) (x y : ℚ) (t : Traits) (gen : ℕ) (vx vy : ℚ)
    (hw : Inv w) : Inv (addAndAssign w x y t gen vx vy) := by
  rcases hA : assignSpecies w.reg w.nextCreatureId t gen w.simulationTime with ⟨sid, r'⟩
  obtain ⟨f1, f2, f3, f4, f5, f6, f7, pop0, f8, f9⟩ :=
    assignSpecies_facts w.reg w.nextCreatureId t gen w.simulationTime sid r' hA
      hw.sidsNodup hw.sidsLt
  have hred : addAndAssign w x y t gen vx vy =
      { w with
        nextCreatureId := w.nextCreatureId + 1
        reg := r'
        creatures := w.creatures ++
          [{ mkCreature w.nextCreatureId x y t gen vx vy with speciesId := some sid }] } := by
    simp only [addAndAssign]
    rw [show (mkCreature w.nextCreatureId x y t gen vx vy).id = w.nextCreatureId from rfl]
    rw [hA]
  rw [hred]
  set newC : Creature :=
    { mkCreature w.nextCreatureId x y t gen vx vy with speciesId := some sid } with hnewC
  have hnewid : newC.id = w.nextCreatureId := rfl
  have hnewalive : newC.isAlive = true := rfl
  have hold_map : ∀ c ∈ w.creatures, r'.mapping c.id = w.reg.mapping c.id := by
    intro c hc
    exact f2 c.id (by have := hw.idsLt c hc; omega)
  constructor
  case haveSpecies =>
    intro c hc
    rcases List.mem_append.mp hc with h | h
    · exact hw.haveSpecies c h
    · simp only [List.mem_singleton] at h
      subst h
      rfl
  case idsNodup =>
    dsimp only [mkCreature]
    simp only [List.map_append, List.map_cons, List.map_nil]
    rw [List.nodup_append]
    refine ⟨hw.idsNodup, List.nodup_singleton _, ?_⟩
    intro a ha hb
    simp only [List.mem_singleton, mkCreature] at hb
    rcases List.mem_map.mp ha with ⟨c, hc, hcid⟩
    have := hw.idsLt c hc
    omega
  case idsLt =>
    dsimp only [mkCreature]
    intro c hc
    rcases List.mem_append.mp hc with h | h
    · have := hw.idsLt c h
      omega
    · simp only [List.mem_singleton] at h
      subst h
      simp only [mkCreature]
      omega
  case mapLt =>
    dsimp only [mkCreature]
    intro i sid0 h0
    by_cases hi : i = w.nextCreatureId
    · omega
    · rw [f2 i hi] at h0
      have := hw.mapLt i sid0 h0
      omega
  case sidsNodup => exact f4
  case sidsLt => exact f5
  case mapValid =>
    dsimp only [mkCreature]
    intro i sid0 h0
    by_cases hi : i = w.nextCreatureId
    · subst hi
      rw [f1] at h0
      rw [← Option.some.inj h0]
      exact f3
    · rw [f2 i hi] at h0
      exact f6 sid0 (hw.mapValid i sid0 h0)
  case aliveMapped =>
    dsimp only [mkCreature]
    intro c hc halive
    rcases List.mem_append.mp hc with h | h
    · rw [hold_map c h]
      exact hw.aliveMapped c h halive
    · simp only [List.mem_singleton] at h
      subst h
      rw [hnewid, f1]
      rfl
  case popCounts =>
    dsimp only [mkCreature]
    intro s' hs'
    have hcount : ∀ sid0 : ℕ,
        ((w.creatures ++ [newC]).filter fun c =>
          c.isAlive && decide (r'.mapping c.id = some sid0)).length =
        countAssignedTo w sid0 + (if sid = sid0 then 1 else 0) := by
      intro sid0
      rw [List.filter_append]
      rw [List.length_append]
      congr 1
      · unfold countAssignedTo
        congr 1
        apply List.filter_congr
        intro c hc
        rw [hold_map c hc]
      · simp only [List.filter_cons, List.filter_nil]
        rw [hnewalive, hnewid, f1]
        by_cases hs0 : sid = sid0
        · rw [if_pos hs0]
          simp [hs0]
        · rw [if_neg hs0]
          simp [hs0]
    by_cases hids : s'.id = sid
    · have hpop := f8 s' hs' hids
      rw [hpop]
      show pop0 + 1 = ((countAssignedTo _ s'.id : ℕ) : ℤ)
      rw [show countAssignedTo
          { w with
            nextCreatureId := w.nextCreatureId + 1
            reg := r'
            creatures := w.creatures ++ [newC] } s'.id =
          countAssignedTo w s'.id + (if sid = s'.id then 1 else 0) from hcount s'.id]
      rw [if_pos hids.symm]
      have hpop0 : pop0 = (countAssignedTo w s'.id : ℤ) := by
        rcases f9 with ⟨s0, hs0, hs0id, hs0pop⟩ | ⟨hz, hnm⟩
        · rw [← hs0pop]
          have := hw.popCounts s0 hs0
          rw [this, hs0id, hids]
        · rw [hz]
          have : countAssignedTo w s'.id = 0 := by
            unfold countAssignedTo
            rw [List.length_eq_zero]
            apply List.filter_eq_nil.mpr
            intro c hc
            simp only [Bool.and_eq_true, decide_eq_true_eq, not_and]
            intro _ hmapc
            apply hnm
            rw [← hids]
            exact hw.mapValid c.id s'.id hmapc
          rw [this]
          rfl
      rw [hpop0]
      push_cast
      ring
    · have hs'old : s' ∈ w.reg.species := f7 s' hs' hids
      have := hw.popCounts s' hs'old
      rw [this]
      show ((countAssignedTo w s'.id : ℕ) : ℤ) = _
      rw [show countAssignedTo
          { w with
            nextCreatureId := w.nextCreatureId + 1
            reg := r'
            creatures := w.creatures ++ [newC] } s'.id =
          countAssignedTo w s'.id + (if sid = s'.id then 1 else 0) from hcount s'.id]
      rw [if_neg (fun h => hids h.symm)]
      push_cast
      ring

theorem inv_of_fields {w w' : World} (hc : w'.creatures = w.creatures)
    (hr : w'.reg = w.reg) (hn : w'.nextCreatureId = w.nextCreatureId)
    (hw : Inv w) : Inv w' := by
  constructor
  case haveSpecies => rw [hc]; exact hw.haveSpecies
  case idsNodup => rw [hc]; exact hw.idsNodup
  case idsLt => rw [hc, hn]; exact hw.idsLt
  case mapLt => rw [hr, hn]; exact hw.mapLt
  case sidsNodup => rw [hr]; exact hw.sidsNodup
  case sidsLt => rw [hr]; exact hw.sidsLt
  case mapValid => rw [hr]; exact hw.mapValid
  case aliveMapped => rw [hc, hr]; exact hw.aliveMapped
  case popCounts =>
    intro s hs
    rw [hr] at hs
    have := hw.popCounts s hs
    rw [this]
    unfold countAssignedTo
    rw [hc, hr]

theorem addCreatureOp_inv (w : World) (x y : ℚ) (t : Traits) (gen : ℕ) (vx vy : ℚ)
    (hw : Inv w) : Inv (addCreatureOp w x y t gen vx vy) := by
  unfold addCreatureOp
  split
  · refine inv_of_fields ?_ ?_ ?_ (addAndAssign_inv w x y t gen vx vy hw) <;> rfl
  · refine ⟨hw.haveSpecies, hw.idsNodup, ?_, ?_, hw.sidsNodup, hw.sidsLt,
      hw.mapValid, hw.aliveMapped, ?_⟩
    · intro c hc
      have := hw.idsLt c hc
      simp only
      omega
    · intro i sid h
      have := hw.mapLt i sid h
      simp only
      omega
    · intro s hs
      have := hw.popCounts s hs
      rw [this]
      rfl

theorem nodup_ids_split {A B : List Creature} {c : Creature}
    (h : ((A ++ c :: B).map Creature.id).Nodup) :
    (∀ c' ∈ A, c'.id ≠ c.id) ∧ (∀ c' ∈ B, c'.id ≠ c.id) := by
  rw [List.map_append, List.map_cons, List.nodup_append] at h
  obtain ⟨h1, h2, h3⟩ := h
  rw [List.nodup_cons] at h2
  constructor
  · intro c' hc' heq
    exact h3 (List.mem_map_of_mem _ hc') (by simp [heq])
  · intro c' hc' heq
    exact h2.1 (heq ▸ List.mem_map_of_mem _ hc')

theorem killAt_inv (w : World) (i : ℕ) (hi : i < w.creatures.length)
    (halive : (w.creatures.get ⟨i, hi⟩).isAlive = true) (hw : Inv w) :
    Inv (killAt w i) := by
  set c := w.creatures.get ⟨i, hi⟩ with hc
  have hcmem : c ∈ w.creatures := by
    rw [hc]
    exact List.get_mem _ _ _
  have hget : w.creatures[i]? = some c := by
    rw [List.getElem?_eq_getElem hi]
    rfl
  have hsome := hw.aliveMapped c hcmem halive
  rcases Option.isSome_iff_exists.mp hsome with ⟨sid, hmap⟩
  have hkill : killAt w i =
      { w with creatures := w.creatures.set i c.die, reg := recordDeath w.reg c.id } := by
    unfold killAt
    rw [hget]
  have hrd : recordDeath w.reg c.id =
      { w.reg with
        species := updateById w.reg.species sid
          (fun s => { s with population := s.population - 1, totalDeaths := s.totalDeaths + 1 })
        mapping := fun j => if j = c.id then none else w.reg.mapping j } := by
    unfold recordDeath
    rw [hmap]
  obtain ⟨hsplitL, hsplit⟩ := list_split_at_index w.creatures i hi
  rw [← hc] at hsplitL
  set A := w.creatures.take i with hA
  set B := w.creatures.drop (i + 1) with hB
  have hsetdie : w.creatures.set i c.die = A ++ c.die :: B := (hsplit c.die).1
  have hnodupAB := hw.idsNodup
  rw [hsplitL] at hnodupAB
  obtain ⟨hidA, hidB⟩ := nodup_ids_split hnodupAB
  have hdieid : c.die.id = c.id := rfl
  have hdiespec : c.die.speciesId = c.speciesId := rfl
  have hdiedead : c.die.isAlive = false := rfl
  have hmapother : ∀ c' : Creature, c'.id ≠ c.id →
      (recordDeath w.reg c.id).mapping c'.id = w.reg.mapping c'.id := by
    intro c' hne
    rw [hrd]
    simp only
    rw [if_neg hne]
  rw [hkill, hrd]
  constructor
  case haveSpecies =>
    intro c' hc'
    simp only [hsetdie] at hc'
    rcases List.mem_append.mp hc' with h | h
    · exact hw.haveSpecies c' (by rw [hsplitL]; exact List.mem_append_left _ h)
    · rcases List.mem_cons.mp h with h | h
      · subst h
        rw [hdiespec]
        exact hw.haveSpecies c hcmem
      · exact hw.haveSpecies c'
          (by rw [hsplitL]; exact List.mem_append_right _ (List.mem_cons_of_mem _ h))
  case idsNodup =>
    simp only [hsetdie]
    have : (A ++ c.die :: B).map Creature.id = (A ++ c :: B).map Creature.id := by
      simp [List.map_append, hdieid]
    rw [this, ← hsplitL]
    exact hw.idsNodup
  case idsLt =>
    intro c' hc'
    simp only [hsetdie] at hc'
    simp only
    rcases List.mem_append.mp hc' with h | h
    · exact hw.idsLt c' (by rw [hsplitL]; exact List.mem_append_left _ h)
    · rcases List.mem_cons.mp h with h | h
      · subst h
        rw [hdieid]
        exact hw.idsLt c hcmem
      · exact hw.idsLt c'
          (by rw [hsplitL]; exact List.mem_append_right _ (List.mem_cons_of_mem _ h))
  case mapLt =>
    intro j sid0 h0
    simp only at h0
    by_cases hj : j = c.id
    · rw [if_pos hj] at h0
      exact absurd h0 (by simp)
    · rw [if_neg hj] at h0
      exact hw.mapLt j sid0 h0
  case sidsNodup =>
    simp only
    rw [updateById_map_id _ _
      (fun s => { s with population := s.population - 1, totalDeaths := s.totalDeaths + 1 })
      (fun s => rfl)]
    exact hw.sidsNodup
  case sidsLt =>
    intro s' hs'
    simp only at hs'
    rcases updateById_mem _ _ _ _ hs' with ⟨s0, hs0, hcond⟩
    have : s'.id = s0.id := by
      rw [hcond]
      split
      · rfl
      · rfl
    simp only
    rw [this]
    exact hw.sidsLt s0 hs0
  case mapValid =>
    intro j sid0 h0
    simp only at h0 ⊢
    by_cases hj : j = c.id
    · rw [if_pos hj] at h0
      exact absurd h0 (by simp)
    · rw [if_neg hj] at h0
      rw [updateById_map_id _ _
        (fun s => { s with population := s.population - 1, totalDeaths := s.totalDeaths + 1 })
        (fun s => rfl)]
      exact hw.mapValid j sid0 h0
  case aliveMapped =>
    intro c' hc' halive'
    simp only [hsetdie] at hc'
    simp only
    rcases List.mem_append.mp hc' with h | h
    · have hne := hidA c' h
      rw [if_neg hne]
      exact hw.aliveMapped c' (by rw [hsplitL]; exact List.mem_append_left _ h) halive'
    · rcases List.mem_cons.mp h with h | h
      · subst h
        rw [hdiedead] at halive'
        exact absurd halive' (by simp)
      · have hne := hidB c' h
        rw [if_neg hne]
        exact hw.aliveMapped c'
          (by rw [hsplitL]; exact List.mem_append_right _ (List.mem_cons_of_mem _ h)) halive'
  case popCounts =>
    intro s' hs'
    simp only at hs' ⊢
    rcases updateById_mem _ _ _ _ hs' with ⟨s0, hs0, hcond⟩
    have hfiltAB : ∀ (L : List Creature), (∀ c' ∈ L, c'.id ≠ c.id) → ∀ sid0 : ℕ,
        (L.filter fun c0 => c0.isAlive &&
          decide ((if c0.id = c.id then none else w.reg.mapping c0.id) = some sid0)) =
        (L.filter fun c0 => c0.isAlive && decide (w.reg.mapping c0.id = some sid0)) := by
      intro L hL sid0
      apply List.filter_congr
      intro c0 hc0
      rw [if_neg (hL c0 hc0)]
    have hcount : ∀ sid0 : ℕ,
        ((A ++ c.die :: B).filter fun c0 => c0.isAlive &&
          decide ((if c0.id = c.id then none else w.reg.mapping c0.id) = some sid0)).length
        = countAssignedTo w sid0 - (if sid = sid0 then 1 else 0) := by
      intro sid0
      have hccond : (if (c.isAlive && decide (w.reg.mapping c.id = some sid0)) = true
          then (1 : ℕ) else 0) = (if sid = sid0 then 1 else 0) := by
        rw [halive, hmap]
        by_cases h0 : sid = sid0
        · simp [h0]
        · simp [h0]
      have hcountOld : countAssignedTo w sid0 =
          ((A.filter fun c0 => c0.isAlive && decide (w.reg.mapping c0.id = some sid0)).length +
           ((if sid = sid0 then 1 else 0) +
            (B.filter fun c0 => c0.isAlive && decide (w.reg.mapping c0.id = some sid0)).length)) := by
        unfold countAssignedTo
        rw [hsplitL]
        rw [List.filter_append, List.length_append, List.filter_cons]
        rw [← hccond]
        congr 1
        split
        · rw [List.length_cons]
          omega
        · omega
      have hdcond : (c.die.isAlive &&
          decide ((if c.die.id = c.id then none else w.reg.mapping c.die.id) = some sid0)) = false := by
        rw [hdiedead]
        simp
      rw [List.filter_append, List.length_append, List.filter_cons, hdcond]
      simp only [Bool.false_eq_true, if_false]
      rw [hfiltAB A hidA sid0, hfiltAB B hidB sid0]
      rw [hcountOld]
      by_cases h0 : sid = sid0
      · rw [if_pos h0]
        omega
      · rw [if_neg h0]
        omega
    by_cases hids : s0.id = sid
    · rw [hcond, if_pos hids]
      simp only
      show s0.population - 1 = _
      rw [hw.popCounts s0 hs0]
      have := hcount s0.id
      unfold countAssignedTo at this ⊢
      simp only at this ⊢
      rw [hsetdie]
      rw [this]
      rw [if_pos (by omega)]
      have hposcount : 1 ≤ countAssignedTo w s0.id := by
        unfold countAssignedTo
        rw [hsplitL]
        rw [List.filter_append, List.length_append, List.filter_cons]
        have : (c.isAlive && decide (w.reg.mapping c.id = some s0.id)) = true := by
          rw [halive, hmap, hids]
          simp
        rw [this]
        simp
        omega
      unfold countAssignedTo at hposcount
      push_cast
      omega
    · rw [hcond, if_neg hids]
      rw [hw.popCounts s0 hs0]
      have := hcount s0.id
      unfold countAssignedTo at this ⊢
      simp only at this ⊢
      rw [hsetdie, this]
      rw [if_neg (by omega)]
      push_cast
      omega

theorem emigrateAt_eq_killAt (w : World) (i : ℕ) (hi : i < w.creatures.length) :
    emigrateAt w i = { killAt w i with totalDeaths := w.totalDeaths - 1 } := by
  unfold emigrateAt killAt
  rw [List.getElem?_eq_getElem hi]

theorem emigrateAt_inv (w : World) (i : ℕ) (hi : i < w.creatures.length)
    (halive : (w.creatures.get ⟨i, hi⟩).isAlive = true) (hw : Inv w) :
    Inv (emigrateAt w i) := by
  rw [emigrateAt_eq_killAt w i hi]
  refine inv_of_fields ?_ ?_ ?_ (killAt_inv w i hi halive hw) <;> rfl

theorem cleanupOp_inv (w : World) (hw : Inv w) : Inv (cleanupOp w) := by
  have hsub : (w.creatures.filter fun c => c.isAlive).Sublist w.creatures :=
    List.filter_sublist _
  constructor
  case haveSpecies =>
    intro c hc
    exact hw.haveSpecies c (hsub.mem hc)
  case idsNodup =>
    exact hw.idsNodup.sublist (hsub.map Creature.id)
  case idsLt =>
    intro c hc
    exact hw.idsLt c (hsub.mem hc)
  case mapLt => exact hw.mapLt
  case sidsNodup => exact hw.sidsNodup
  case sidsLt => exact hw.sidsLt
  case mapValid => exact hw.mapValid
  case aliveMapped =>
    intro c hc halive
    exact hw.aliveMapped c (hsub.mem hc) halive
  case popCounts =>
    intro s hs
    rw [hw.popCounts s hs]
    unfold countAssignedTo
    rw [show (cleanupOp w).creatures = w.creatures.filter (fun c => c.isAlive) from rfl,
        show (cleanupOp w).reg = w.reg from rfl]
    congr 1
    rw [List.filter_filter]
    congr 1
    apply List.filter_congr
    intro c hc
    by_cases ha : c.isAlive
    · rw [ha]
      simp
    · simp only [Bool.not_eq_true] at ha
      rw [ha]
      simp

theorem foldl_addAndAssign_inv (fs : List ((ℚ × ℚ) × Traits)) (w0 : World)
    (h : Inv w0) :
    Inv (fs.foldl (fun w f => addAndAssign w f.1.1 f.1.2 f.2 0 0 0) w0) := by
  induction fs generalizing w0 with
  | nil => exact h
  | cons f fs ih =>
    rw [List.foldl_cons]
    exact ih _ (addAndAssign_inv w0 f.1.1 f.1.2 f.2 0 0 0 h)

theorem initWorld_inv (nextId : ℕ) (founders : List ((ℚ × ℚ) × Traits)) :
    Inv (initWorld nextId founders) := by
  unfold initWorld
  apply foldl_addAndAssign_inv
  constructor
  case haveSpecies => intro c hc; exact absurd hc (List.not_mem_nil c)
  case idsNodup => exact List.nodup_nil
  case idsLt => intro c hc; exact absurd hc (List.not_mem_nil c)
  case mapLt =>
    intro i sid h
    exact absurd h (by simp [Registry.reset])
  case sidsNodup => exact List.nodup_nil
  case sidsLt => intro s hs; exact absurd hs (List.not_mem_nil s)
  case mapValid =>
    intro i sid h
    exact absurd h (by simp [Registry.reset])
  case aliveMapped => intro c hc; exact absurd hc (List.not_mem_nil c)
  case popCounts => intro s hs; exact absurd hs (List.not_mem_nil s)

/-- Every reachable world satisfies the bookkeeping invariant. -/
theorem reach_inv {w : World} (h : WReach w) : Inv w := by
  induction h with
  | init nextId founders => exact initWorld_inv nextId founders
  | step _ hstep ih =>
    cases hstep with
    | addCreature x y t gen vx vy => exact addCreatureOp_inv _ x y t gen vx vy ih
    | death i hi halive => exact killAt_inv _ i hi halive ih
    | emigrate i hi halive => exact emigrateAt_inv _ i hi halive ih
    | cleanup => exact cleanupOp_inv _ ih

theorem sum_map_zero {α : Type} (l : List α) : (l.map fun _ => (0 : ℤ)).sum = 0 := by
  induction l with
  | nil => rfl
  | cons a l ih => simp [ih]

theorem sum_map_add {α : Type} (l : List α) (f g : α → ℤ) :
    (l.map fun a => f a + g a).sum = (l.map f).sum + (l.map g).sum := by
  induction l with
  | nil => rfl
  | cons a l ih =>
    simp only [List.map_cons, List.sum_cons, ih]
    ring

theorem sum_indicator_zero (l : List Species) (sid : ℕ)
    (h : sid ∉ l.map Species.id) :
    (l.map fun s => if s.id = sid then (1 : ℤ) else 0).sum = 0 := by
  induction l with
  | nil => rfl
  | cons a l ih =>
    simp only [List.map_cons, List.sum_cons]
    rw [List.map_cons, List.mem_cons] at h
    push_neg at h
    rw [if_neg (fun he => h.1 he.symm), ih h.2]
    ring

theorem sum_indicator_one (l : List Species) (sid : ℕ)
    (hN : (l.map Species.id).Nodup) (hm : sid ∈ l.map Species.id) :
    (l.map fun s => if s.id = sid then (1 : ℤ) else 0).sum = 1 := by
  induction l with
  | nil => exact absurd hm (List.not_mem_nil _)
  | cons a l ih =>
    rw [List.map_cons, List.nodup_cons] at hN
    rw [List.map_cons, List.mem_cons] at hm
    simp only [List.map_cons, List.sum_cons]
    by_cases ha : a.id = sid
    · rw [if_pos ha, sum_indicator_zero l sid (ha ▸ hN.1)]
      ring
    · rcases hm with hm | hm
      · exact absurd hm.symm ha
      · rw [if_neg ha, ih hN.2 hm]
        ring

theorem sum_counts (species : List Species) (m : ℕ → Option ℕ) (cs : List Creature)
    (hN : (species.map Species.id).Nodup)
    (hall : ∀ c ∈ cs, c.isAlive = true →
      ∃ sid, m c.id = some sid ∧ sid ∈ species.map Species.id) :
    (species.map fun s =>
      ((cs.filter fun c => c.isAlive && decide (m c.id = some s.id)).length : ℤ)).sum
    = ((cs.filter fun c => c.isAlive && (m c.id).isSome).length : ℤ) := by
  induction cs with
  | nil =>
    simp only [List.filter_nil, List.length_nil, Nat.cast_zero]
    exact sum_map_zero species
  | cons c cs ih =>
    have ih' := ih (fun c0 h0 => hall c0 (List.mem_cons_of_mem _ h0))
    cases hca : c.isAlive with
    | false =>
      have hLHS : (species.map fun s =>
          (((c :: cs).filter fun c0 => c0.isAlive && decide (m c0.id = some s.id)).length : ℤ))
          = species.map fun s =>
          ((cs.filter fun c0 => c0.isAlive && decide (m c0.id = some s.id)).length : ℤ) := by
        apply List.map_congr_left
        intro s _
        rw [List.filter_cons]
        rw [show (c.isAlive && decide (m c.id = some s.id)) = false by rw [hca]; simp]
        simp
      rw [hLHS, ih']
      rw [List.filter_cons]
      rw [show (c.isAlive && (m c.id).isSome) = false by rw [hca]; simp]
      simp
    | true =>
      obtain ⟨sid, hsid, hsidmem⟩ := hall c (List.mem_cons_self _ _) hca
      have hLHS : (species.map fun s =>
          (((c :: cs).filter fun c0 => c0.isAlive && decide (m c0.id = some s.id)).length : ℤ))
          = species.map fun s =>
          (if s.id = sid then (1 : ℤ) else 0) +
            ((cs.filter fun c0 => c0.isAlive && decide (m c0.id = some s.id)).length : ℤ) := by
        apply List.map_congr_left
        intro s _
        rw [List.filter_cons]
        by_cases hss : s.id = sid
        · rw [show (c.isAlive && decide (m c.id = some s.id)) = true by
            rw [hca, hsid, hss]; simp]
          rw [if_pos rfl]
          rw [if_pos hss]
          rw [List.length_cons]
          push_cast
          ring
        · rw [show (c.isAlive && decide (m c.id = some s.id)) = false by
            rw [hca, hsid]; simp; intro he; exact absurd he.symm hss]
          rw [if_neg (by simp)]
          rw [if_neg hss]
          push_cast
          ring
      rw [hLHS, sum_map_add, sum_indicator_one species sid hN hsidmem, ih']
      rw [List.filter_cons]
      rw [show (c.isAlive && (m c.id).isSome) = true by rw [hca, hsid]; simp]
      rw [if_pos rfl]
      rw [List.length_cons]
      push_cast
      ring

theorem sum_filter_pos (l : List Species) (h : ∀ s ∈ l, 0 ≤ s.population) :
    ((l.filter fun s => decide (0 < s.population)).map Species.population).sum
      = (l.map Species.population).sum := by
  induction l with
  | nil => rfl
  | cons a l ih =>
    have ih' := ih (fun s hs => h s (List.mem_cons_of_mem _ hs))
    rw [List.filter_cons]
    by_cases ha : 0 < a.population
    · rw [show (decide (0 < a.population)) = true by simp [ha]]
      rw [if_pos rfl]
      simp only [List.map_cons, List.sum_cons, ih']
    · rw [show (decide (0 < a.population)) = false by simp [ha]]
      rw [if_neg (by simp)]
      simp only [List.map_cons, List.sum_cons, ih']
      have h0 : a.population = 0 := le_antisymm (by omega) (h a (List.mem_cons_self _ _))
      rw [h0]
      ring

/-- C5: in every world state reachable through initialize, addCreature,
creature deaths, emigration and cleanup, the sum of population over the
species with population above zero equals the number of creatures with
isAlive true and a non-null speciesId. -/
theorem c5_species_accounting (w : World) (h : WReach w) :
    sumActivePop w.reg = (aliveAssignedCount w : ℤ) := by
  have hw := reach_inv h
  have hnonneg : ∀ s ∈ w.reg.species, 0 ≤ s.population := by
    intro s hs
    rw [hw.popCounts s hs]
    positivity
  unfold sumActivePop
  rw [sum_filter_pos w.reg.species hnonneg]
  have hpointwise : w.reg.species.map Species.population =
      w.reg.species.map fun s => ((countAssignedTo w s.id : ℕ) : ℤ) :=
    List.map_congr_left (fun s hs => hw.popCounts s hs)
  rw [hpointwise]
  have hsum := sum_counts w.reg.species w.reg.mapping w.creatures hw.sidsNodup
    (fun c hc halive => by
      have hs := hw.aliveMapped c hc halive
      rcases Option.isSome_iff_exists.mp hs with ⟨sid, hsid⟩
      exact ⟨sid, hsid, hw.mapValid c.id sid hsid⟩)
  unfold countAssignedTo
  rw [hsum]
  unfold aliveAssignedCount
  congr 2
  apply List.filter_congr
  intro c hc
  cases hca : c.isAlive with
  | false => simp
  | true =>
    rw [hw.aliveMapped c hc hca, hw.haveSpecies c hc]

/-- C5 witness: a world holding one founder creature; its single species
has population 1, matching the one alive assigned creature. -/
theorem c5_species_accounting_witness :
    sumActivePop (initWorld 0 [((100, 100), halfTraits)]).reg =
      (aliveAssignedCount (initWorld 0 [((100, 100), halfTraits)]) : ℤ) :=
  c5_species_accounting _ (WReach.init 0 [((100, 100), halfTraits)])

/-! ## C1: corpse creation after a death through die() -/

/-- A live creature whose energy is 80. -/
def dpCreature : Creature := { mkCreature 0 100 100 halfTraits 0 1 0 with energy := 80 }

/-- A world holding the single live creature dpCreature. -/
def deadPathWorld : World where
  creatures := [dpCreature]
  corpses := []
  reg := Registry.reset
  nextCreatureId := 1
  totalBirths := 0
  totalDeaths := 0
  generationMax := 0
  simulationTime := 0

/-- C1: a creature that dies during a tick with energy 80 (above 5, so
the claim requires a corpse with energy 80 * 0.6 = 48 at the next
cleanup) leaves NO corpse: every in-simulation death path runs
Creature.die, which zeroes the energy before cleanup reads it, so
cleanup's corpse condition (dead and energy above 5) never fires.  This
refutes the claim as stated and exhibits the divergence between the
code and the specified corpse-creation behaviour. -/
theorem c1_corpse_energy_code_divergence :
    (deadPathWorld.creatures = [dpCreature] ∧ dpCreature.energy = 80 ∧
     dpCreature.isAlive = true ∧ (5 : ℚ) < 80 * 0.6) ∧
    (cleanupOp (killAt deadPathWorld 0)).corpses = [] := by
  refine ⟨⟨rfl, rfl, rfl, by norm_num⟩, ?_⟩
  have hkill : killAt deadPathWorld 0 =
      { deadPathWorld with
        creatures := [dpCreature.die]
        reg := recordDeath deadPathWorld.reg 0 } := by
    unfold killAt deadPathWorld
    rfl
  rw [hkill]
  unfold cleanupOp corpsesAfter
  simp only [List.foldl_cons, List.foldl_nil]
  rw [if_neg (by
    intro hcond
    have h2 := hcond.2.1
    simp only [Creature.die] at h2
    norm_num at h2)]
  rfl

/-! ## C3: emigration and the death counter -/

/-- A world holding a single live creature, with the given prior value
of totalDeaths. -/
def emigrationWorld (d : ℕ) : World where
  creatures := [mkCreature 0 5 5 halfTraits 0 1 0]
  corpses := []
  reg := Registry.reset
  nextCreatureId := 1
  totalBirths := 0
  totalDeaths := d
  generationMax := 0
  simulationTime := 0

/-- C3 counterexample: with prior totalDeaths = 0, one emigration
followed by cleanup leaves totalDeaths = 1, not 0: the
Math.max(0, totalDeaths - 1) clamp cannot go below zero, and cleanup
then counts the emigrant as a dead creature.  So the emigrant is NOT
excluded from the death counter for prior value 0. -/
theorem c3_emigration_death_count_counterexample :
    (emigrationWorld 0).totalDeaths = 0 ∧
    (cleanupOp (emigrateAt (emigrationWorld 0) 0)).totalDeaths = 1 := by
  refine ⟨rfl, ?_⟩
  have hem : emigrateAt (emigrationWorld 0) 0 =
      { emigrationWorld 0 with
        creatures := [(mkCreature 0 5 5 halfTraits 0 1 0).die]
        reg := recordDeath (emigrationWorld 0).reg 0
        totalDeaths := 0 - 1 } := by
    unfold emigrateAt emigrationWorld
    rfl
  rw [hem]
  unfold cleanupOp
  simp only [List.filter_cons, List.filter_nil]
  rfl

theorem filter_dead_nil (L : List Creature) (h : ∀ c ∈ L, c.isAlive = true) :
    L.filter (fun c => !c.isAlive) = [] := by
  apply List.filter_eq_nil.mpr
  intro c hc
  rw [h c hc]
  simp

/-- C3 amended: for every world in which all creatures are alive and the
prior totalDeaths value is at least 1, one emigration followed by
cleanup leaves totalDeaths net unchanged (the decrement consumed by the
emigration cancels against cleanup counting the emigrant's body).  The
restriction to a positive prior value is forced by the counterexample:
at 0 the clamp loses the decrement and the emigrant is counted. -/
theorem c3_emigration_amended (w : World) (i : ℕ) (hi : i < w.creatures.length)
    (hall : ∀ c ∈ w.creatures, c.isAlive = true) (hD : 1 ≤ w.totalDeaths) :
    (cleanupOp (emigrateAt w i)).totalDeaths = w.totalDeaths := by
  set c := w.creatures.get ⟨i, hi⟩ with hc
  have hget : w.creatures[i]? = some c := by
    rw [List.getElem?_eq_getElem hi]
    rfl
  have hem : emigrateAt w i =
      { w with
        creatures := w.creatures.set i c.die
        reg := recordDeath w.reg c.id
        totalDeaths := w.totalDeaths - 1 } := by
    unfold emigrateAt
    rw [hget]
  obtain ⟨hsplitL, hsplit⟩ := list_split_at_index w.creatures i hi
  rw [← hc] at hsplitL
  have hsetdie : w.creatures.set i c.die =
      w.creatures.take i ++ c.die :: w.creatures.drop (i + 1) := (hsplit c.die).1
  rw [hem]
  unfold cleanupOp
  simp only
  rw [hsetdie]
  rw [List.filter_append, List.filter_cons]
  rw [filter_dead_nil _ (fun c' h' => hall c' (by
    rw [hsplitL]
    exact List.mem_append_left _ h'))]
  rw [filter_dead_nil _ (fun c' h' => hall c' (by
    rw [hsplitL]
    exact List.mem_append_right _ (List.mem_cons_of_mem _ h')))]
  rw [show (!(c.die).isAlive) = true by simp [Creature.die]]
  simp only [if_pos rfl, List.nil_append, List.length_cons, List.length_nil]
  show w.totalDeaths - 1 + (0 + (0 + 1)) = w.totalDeaths
  omega

/-- C3 amended witness: with prior totalDeaths = 1 the counter is 1
again after emigration plus cleanup. -/
theorem c3_emigration_amended_witness :
    (cleanupOp (emigrateAt (emigrationWorld 1) 0)).totalDeaths = 1 :=
  c3_emigration_amended (emigrationWorld 1) 0 (by norm_num [emigrationWorld])
    (fun c hc => by
      rcases List.mem_singleton.mp hc with h
      rw [h]
      rfl)
    (by norm_num [emigrationWorld])

/-! ## C8: temperature zones, from World.getTemperatureAt.

The distance here is a genuine square root, so this part of the
embedding lives over the reals. -/

structure TempZone where
  x : ℝ
  y : ℝ
  radius : ℝ
  temperature : ℝ
  createdAt : ℝ
  isRandom : Bool

/-- getTemperatureAt: start from the global temperature and add, for
each zone strictly containing the point, the zone delta scaled by the
linear falloff 1 - dist / radius. -/
noncomputable def getTemperatureAt (globalTemperature : ℝ) (zones : List TempZone)
    (x y : ℝ) : ℝ :=
  zones.foldl
    (fun temp zone =>
      let dist := Real.sqrt ((x - zone.x)^2 + (y - zone.y)^2)
      if dist < zone.radius then temp + zone.temperature * (1 - dist / zone.radius)
      else temp)
    globalTemperature

/-- C8: with global temperature 20 and a single zone of +30 delta and
positive radius, getTemperatureAt returns 50 at the zone center, and 20
at every point whose distance from the center is at least the radius --
in particular exactly at the radius boundary; the zone contributes only
strictly inside its radius. -/
theorem c8_temperature_zone (zx zy R ct : ℝ) (b : Bool) (hR : 0 < R) :
    getTemperatureAt 20 [⟨zx, zy, R, 30, ct, b⟩] zx zy = 50 ∧
    (∀ x y : ℝ, R ≤ Real.sqrt ((x - zx)^2 + (y - zy)^2) →
      getTemperatureAt 20 [⟨zx, zy, R, 30, ct, b⟩] x y = 20) := by
  constructor
  · unfold getTemperatureAt
    simp only [List.foldl_cons, List.foldl_nil]
    rw [show zx - zx = (0 : ℝ) by ring, show zy - zy = (0 : ℝ) by ring]
    rw [show ((0 : ℝ)^2 + (0 : ℝ)^2) = 0 by ring, Real.sqrt_zero]
    rw [if_pos hR]
    norm_num
  · intro x y hxy
    unfold getTemperatureAt
    simp only [List.foldl_cons, List.foldl_nil]
    rw [if_neg (not_lt.mpr hxy)]

/-- C8 witness: zone of +30 at (100, 100) with radius 50; 50 degrees at
the center, 20 degrees at (150, 100), which lies exactly on the radius
boundary. -/
theorem c8_temperature_zone_witness :
    getTemperatureAt 20 [⟨100, 100, 50, 30, 0, false⟩] 100 100 = 50 ∧
    getTemperatureAt 20 [⟨100, 100, 50, 30, 0, false⟩] 150 100 = 20 := by
  have h := c8_temperature_zone 100 100 50 0 false (by norm_num)
  refine ⟨h.1, h.2 150 100 ?_⟩
  rw [show ((150 : ℝ) - 100)^2 + ((100 : ℝ) - 100)^2 = 50^2 by norm_num]
  rw [Real.sqrt_sq (by norm_num : (0 : ℝ) ≤ 50)]

/-! ## C9: SimulationEngine setters, from src/lib/simulation/world.ts -/

/-- setSpeed: Math.max(0.1, Math.min(10, speed)). -/
def setSpeed (speed : ℚ) : ℚ := max 0.1 (min 10 speed)

/-- setTemperature: clamp to the configured temperature range. -/
def setTemperature (temp : ℚ) : ℚ := max TEMPERATURE_MIN (min TEMPERATURE_MAX temp)

/-- setFoodAbundance: Math.max(0, Math.min(3, multiplier)). -/
def setFoodAbundance (multiplier : ℚ) : ℚ := max 0 (min 3 multiplier)

/-- setMutationRate: Math.max(0, Math.min(0.3, rate)). -/
def setMutationRate (rate : ℚ) : ℚ := max 0 (min 0.3 rate)

theorem clamp_spec (lo hi v : ℚ) (hlh : lo ≤ hi) :
    (lo ≤ max lo (min hi v) ∧ max lo (min hi v) ≤ hi) ∧
    (lo ≤ v → v ≤ hi → max lo (min hi v) = v) ∧
    (v < lo → max lo (min hi v) = lo) ∧
    (hi < v → max lo (min hi v) = hi) := by
  refine ⟨⟨le_max_left _ _, max_le hlh (min_le_left _ _)⟩, ?_, ?_, ?_⟩
  · intro h1 h2
    rw [min_eq_right h2, max_eq_right h1]
  · intro h
    rw [min_eq_right (le_of_lt (lt_of_lt_of_le h hlh)), max_eq_left (le_of_lt h)]
  · intro h
    rw [min_eq_left (le_of_lt h), max_eq_right hlh]

/-- C9: each engine setter is total and clamps silently: the stored
value always lies in the documented range, an in-range input is stored
unchanged, and an out-of-range input is replaced by the nearest bound. -/
theorem c9_setters_clamp (v : ℚ) :
    ((0.1 ≤ setSpeed v ∧ setSpeed v ≤ 10) ∧
     (0.1 ≤ v → v ≤ 10 → setSpeed v = v) ∧
     (v < 0.1 → setSpeed v = 0.1) ∧ (10 < v → setSpeed v = 10)) ∧
    ((TEMPERATURE_MIN ≤ setTemperature v ∧ setTemperature v ≤ TEMPERATURE_MAX) ∧
     (TEMPERATURE_MIN ≤ v → v ≤ TEMPERATURE_MAX → setTemperature v = v) ∧
     (v < TEMPERATURE_MIN → setTemperature v = TEMPERATURE_MIN) ∧
     (TEMPERATURE_MAX < v → setTemperature v = TEMPERATURE_MAX)) ∧
    ((0 ≤ setFoodAbundance v ∧ setFoodAbundance v ≤ 3) ∧
     (0 ≤ v → v ≤ 3 → setFoodAbundance v = v) ∧
     (v < 0 → setFoodAbundance v = 0) ∧ (3 < v → setFoodAbundance v = 3)) ∧
    ((0 ≤ setMutationRate v ∧ setMutationRate v ≤ 0.3) ∧
     (0 ≤ v → v ≤ 0.3 → setMutationRate v = v) ∧
     (v < 0 → setMutationRate v = 0) ∧ (0.3 < v → setMutationRate v = 0.3)) := by
  refine ⟨clamp_spec 0.1 10 v (by norm_num),
          clamp_spec TEMPERATURE_MIN TEMPERATURE_MAX v
            (by norm_num [TEMPERATURE_MIN, TEMPERATURE_MAX]),
          clamp_spec 0 3 v (by norm_num),
          clamp_spec 0 0.3 v (by norm_num)⟩

/-- C9 witness: concrete in-range and out-of-range inputs. -/
theorem c9_setters_clamp_witness :
    setSpeed 5 = 5 ∧ setSpeed 50 = 10 ∧ setTemperature (-100) = TEMPERATURE_MIN ∧
    setFoodAbundance 1 = 1 ∧ setMutationRate 0.5 = 0.3 :=
  ⟨(c9_setters_clamp 5).1.2.1 (by norm_num) (by norm_num),
   (c9_setters_clamp 50).1.2.2.2 (by norm_num),
   (c9_setters_clamp (-100)).2.1.2.2.1 (by norm_num [TEMPERATURE_MIN]),
   (c9_setters_clamp 1).2.2.1.2.1 (by norm_num) (by norm_num),
   (c9_setters_clamp 0.5).2.2.2.2.2.2 (by norm_num)⟩

end EvoSim
